import Mathlib

/-!
Verification of the calendar scheduling engine of the `ai-assistant`
repository (calendar tools module: `DateUtils`, `parseICalEvent`,
`parseDateTime`, `formatICalDate`, `escapeICalString`, and the
read / check-conflicts / create / delete tools).

The embedding models JavaScript strings as `String` (operated on through
their character lists), JavaScript `Date` values as explicit calendar
fields (`DT` below, millisecond precision) with the usual civil-calendar
arithmetic, and the CalDAV store client as explicit data passed into each
operation.  Effects (store writes, connection attempts, sleeps) are
returned as explicit trace fields of the result structures.
-/

set_option autoImplicit false

namespace CalendarCore

/-! ### JavaScript string primitives

JS `trim`, `includes`, `startsWith`, `endsWith`, `toLowerCase`,
`split(/\r?\n/)`, `split(':')` and `padStart` modelled on character
lists.  `Char.toLower` handles the ASCII range, which is all the source
ever feeds these helpers with.
-/

/-- Whitespace class used by JS `trim` and `\s` (ASCII part). -/
def isJsWS (c : Char) : Bool :=
  c = ' ' || c = '\t' || c = '\n' || c = '\r' || c = '\x0b' || c = '\x0c'

/-- Drop leading and trailing whitespace, as JS `String.prototype.trim`. -/
def trimChars (cs : List Char) : List Char :=
  ((cs.dropWhile isJsWS).reverse.dropWhile isJsWS).reverse

/-- JS `s.trim()`. -/
def jsTrim (s : String) : String := ⟨trimChars s.data⟩

/-- Substring search over character lists (needle, haystack), as JS
`String.prototype.includes`. -/
def charsContains (needle : List Char) : List Char → Bool
  | [] => needle.isEmpty
  | c :: rest => needle.isPrefixOf (c :: rest) || charsContains needle rest

/-- JS `hay.includes(needle)`. -/
def jsIncludes (hay needle : String) : Bool := charsContains needle.data hay.data

/-- JS `s.startsWith(p)`. -/
def jsStartsWith (s p : String) : Bool := p.data.isPrefixOf s.data

/-- JS `s.endsWith(p)`. -/
def jsEndsWith (s p : String) : Bool := p.data.isSuffixOf s.data

/-- JS `s.toLowerCase()` (ASCII range). -/
def jsToLower (s : String) : String := ⟨s.data.map Char.toLower⟩

/-- Prepend a character onto the first piece of a split result. -/
def consHead (c : Char) : List (List Char) → List (List Char)
  | [] => [[c]]
  | l :: ls => (c :: l) :: ls

/-- JS `data.split(/\r?\n/)`: cut at each newline, consuming one carriage
return when it immediately precedes the newline. -/
def splitRN : List Char → List (List Char)
  | [] => [[]]
  | [c] => if c = '\n' then [[], []] else [[c]]
  | c :: c2 :: cs =>
    if c = '\n' then [] :: splitRN (c2 :: cs)
    else if c = '\r' && c2 = '\n' then [] :: splitRN cs
    else consHead c (splitRN (c2 :: cs))

/-- JS `s.split(sep)` for a one-character separator. -/
def splitAllChar (sep : Char) : List Char → List (List Char)
  | [] => [[]]
  | c :: cs =>
    if c = sep then [] :: splitAllChar sep cs else consHead c (splitAllChar sep cs)

/-- JS `s.indexOf(sep)` combined with the two `substring` calls around it:
`none` when the separator does not occur, otherwise the parts strictly
before and strictly after its first occurrence. -/
def splitFirst (sep : Char) : List Char → Option (List Char × List Char)
  | [] => none
  | c :: cs =>
    if c = sep then some ([], cs)
    else (splitFirst sep cs).map (fun p => (c :: p.1, p.2))

/-- JS `s.padStart(w, fill)` on character lists. -/
def padStartChars (w : Nat) (fill : Char) (cs : List Char) : List Char :=
  List.replicate (w - cs.length) fill ++ cs

/-- Decimal digit character for a value below ten. -/
def digitChar (n : Nat) : Char := Char.ofNat (48 + n)

/-- Fuel-driven decimal printer (fuel is always sufficient at `n + 1`). -/
def natDigitsAux : Nat → Nat → List Char
  | 0, _ => []
  | fuel + 1, n =>
    if n < 10 then [digitChar n] else natDigitsAux fuel (n / 10) ++ [digitChar (n % 10)]

/-- Decimal digits of a natural number, as JS `n.toString()` for a
nonnegative integer. -/
def natDigits (n : Nat) : List Char := natDigitsAux (n + 1) n

/-- Decimal value of an all-digit character list, as JS `parseInt` on a
string known to consist of digits. -/
def parseDigits (cs : List Char) : Nat :=
  cs.foldl (fun a c => a * 10 + (c.toNat - 48)) 0

/-! ### Calendar instants

A JS `Date` is modelled by its calendar fields (month is 1-based).
The source compares `Date`s through their epoch-millisecond value and
mutates them with `setDate` / `setHours` / `Date.UTC`-style
normalisation; those operations are provided through the standard
civil-from-days / days-from-civil conversions.

The source mixes the server-local and UTC field views of one `Date`;
the embedding works in a single time zone (local = UTC), which is the
view under which every claim is stated.
-/

structure DT where
  year : Int
  month : Int
  day : Int
  hour : Int
  minute : Int
  second : Int
  ms : Int
deriving DecidableEq, Repr

/-- Days from civil date (proleptic Gregorian, month 1..12; the day may
be any integer, excess days simply shift the result). -/
def daysFromCivil (y m d : Int) : Int :=
  let y' := if m ≤ 2 then y - 1 else y
  let era := y'.fdiv 400
  let yoe := y' - era * 400
  let mp := if m > 2 then m - 3 else m + 9
  let doy := (153 * mp + 2).fdiv 5 + d - 1
  let doe := yoe * 365 + yoe.fdiv 4 - yoe.fdiv 100 + doy
  era * 146097 + doe - 719468

/-- Civil date (year, month 1..12, day) from a day count. -/
def civilFromDays (z0 : Int) : Int × Int × Int :=
  let z := z0 + 719468
  let era := z.fdiv 146097
  let doe := z - era * 146097
  let yoe := (doe - doe.fdiv 1460 + doe.fdiv 36524 - doe.fdiv 146096).fdiv 365
  let y := yoe + era * 400
  let doy := doe - (365 * yoe + yoe.fdiv 4 - yoe.fdiv 100)
  let mp := (5 * doy + 2).fdiv 153
  let d := doy - (153 * mp + 2).fdiv 5 + 1
  let m := if mp < 10 then mp + 3 else mp - 9
  (if m ≤ 2 then y + 1 else y, m, d)

/-- Day count of an instant's calendar date. -/
def dtDays (dt : DT) : Int := daysFromCivil dt.year dt.month dt.day

/-- Instant from a day count, keeping the given time-of-day fields. -/
def ofDaysWithTime (days h mi s ms : Int) : DT :=
  let c := civilFromDays days
  ⟨c.1, c.2.1, c.2.2, h, mi, s, ms⟩

/-- Epoch milliseconds of an instant; JS `Date` comparison and
subtraction go through this value. -/
def toMs (dt : DT) : Int :=
  dtDays dt * 86400000 + dt.hour * 3600000 + dt.minute * 60000 + dt.second * 1000 + dt.ms

/-- JS `d.setDate(n)` (day-of-month assignment with normalisation),
keeping the time of day. -/
def setDayOfMonth (dt : DT) (n : Int) : DT :=
  ofDaysWithTime (daysFromCivil dt.year dt.month 1 + (n - 1)) dt.hour dt.minute dt.second dt.ms

/-- JS `d.setDate(d.getDate() + n)`, i.e. shifting by whole days. -/
def addDaysKeepTime (dt : DT) (n : Int) : DT :=
  ofDaysWithTime (dtDays dt + n) dt.hour dt.minute dt.second dt.ms

/-- JS `d.setHours(h, mi, s, ms)` with in-range arguments. -/
def setHoursMs (dt : DT) (h mi s ms : Int) : DT :=
  { dt with hour := h, minute := mi, second := s, ms := ms }

/-- JS `new Date(y, m0, d, h, mi, s, ms)` with a 0-based month that may
lie outside 0..11 and a day that may lie outside the month. -/
def mkJsDate (y m0 d h mi s ms : Int) : DT :=
  let y' := y + m0.fdiv 12
  let m' := m0.emod 12
  ofDaysWithTime (daysFromCivil y' (m' + 1) 1 + (d - 1)) h mi s ms

/-- JS `d.getDay()`: 0 = Sunday .. 6 = Saturday. -/
def dayOfWeek (dt : DT) : Int := (dtDays dt + 4).emod 7

/-! ### The iCalendar codec

`formatICalDate`, `escapeICalString` and `parseICalEvent` /
`DateUtils.parseEventDateTime` from the source.
-/

/-- Replacement of every occurrence of a one-character pattern, as one
`String.prototype.replace(/pat/g, rep)` pass of the source's
`escapeICalString` (single-character patterns cannot overlap, so a global
replace is a per-character substitution). -/
def replaceChar (pat : Char) (rep : List Char) (cs : List Char) : List Char :=
  cs.flatMap (fun c => if c = pat then rep else [c])

/-- Source `escapeICalString`: escape backslash, then semicolon, then
comma, then newline, then strip carriage returns, in that order. -/
def escapeICalString (s : String) : String :=
  ⟨replaceChar '\r' []
    (replaceChar '\n' ['\\', 'n']
      (replaceChar ',' ['\\', ',']
        (replaceChar ';' ['\\', ';']
          (replaceChar '\\' ['\\', '\\'] s.data))))⟩

/-- Source `formatICalDate`: compact UTC stamp
`YYYYMMDDTHHMMSSZ` from the UTC calendar fields (the stored month is
already 1-based, matching `getUTCMonth() + 1`). -/
def formatICalDate (dt : DT) : String :=
  ⟨padStartChars 4 '0' (natDigits dt.year.toNat) ++
    padStartChars 2 '0' (natDigits dt.month.toNat) ++
    padStartChars 2 '0' (natDigits dt.day.toNat) ++
    'T' :: (padStartChars 2 '0' (natDigits dt.hour.toNat) ++
      padStartChars 2 '0' (natDigits dt.minute.toNat) ++
      padStartChars 2 '0' (natDigits dt.second.toNat) ++ ['Z'])⟩

/-- Shape test for the regex `^\d{8}T\d{6}Z?$`. -/
def compactStampCheck (cs : List Char) : Bool :=
  match cs with
  | [a, b, c, d, e, f, g, h, 'T', i, j, k, l, m, n] =>
    a.isDigit && b.isDigit && c.isDigit && d.isDigit && e.isDigit && f.isDigit &&
      g.isDigit && h.isDigit && i.isDigit && j.isDigit && k.isDigit && l.isDigit &&
      m.isDigit && n.isDigit
  | [a, b, c, d, e, f, g, h, 'T', i, j, k, l, m, n, 'Z'] =>
    a.isDigit && b.isDigit && c.isDigit && d.isDigit && e.isDigit && f.isDigit &&
      g.isDigit && h.isDigit && i.isDigit && j.isDigit && k.isDigit && l.isDigit &&
      m.isDigit && n.isDigit
  | _ => false

/-- Source `DateUtils.parseEventDateTime`.  The compact branch keeps the
parsed fields (`Date.UTC` of in-range fields); the `VALUE=DATE:` branch
takes the segment between the first and second colon and builds a local
midnight date; out-of-shape values in that branch (JS `NaN` fields giving
an invalid `Date`) and the final engine-defined generic `new Date(str)`
parse are modelled as unparsable (`none`) — no claim exercises them. -/
def parseEventDateTime (s : String) : Option DT :=
  let cs := s.data
  if compactStampCheck cs then
    some ⟨parseDigits (cs.take 4), parseDigits ((cs.drop 4).take 2),
      parseDigits ((cs.drop 6).take 2), parseDigits ((cs.drop 9).take 2),
      parseDigits ((cs.drop 11).take 2), parseDigits ((cs.drop 13).take 2), 0⟩
  else if charsContains "VALUE=DATE:".data cs then
    match splitAllChar ':' cs with
    | _ :: seg :: _ =>
      if seg.length ≥ 8 && (seg.take 8).all Char.isDigit then
        some (mkJsDate (parseDigits (seg.take 4)) (parseDigits ((seg.drop 4).take 2) - 1)
          (parseDigits ((seg.drop 6).take 2)) 0 0 0 0)
      else none
    | _ => none
  else none

/-- Field currently being captured by the iCal parser (the source keeps
the JS property name in `currentKey`; an inductive tag stands for it). -/
inductive FieldKey where
  | summary | startK | endK | description | location | uid | recurrence
deriving DecidableEq

/-- Structured event produced by `parseICalEvent`.  The source also
stores `raw`, `startRaw` and `endRaw` copies of the input text; they
carry no parsed structure and no claim mentions them, so they are
omitted.  `end` is a Lean keyword, hence `startD` / `endD`. -/
structure ICalEvent where
  summary : Option String := none
  startD : Option DT := none
  endD : Option DT := none
  description : Option String := none
  location : Option String := none
  uid : Option String := none
  recurrence : Option String := none
deriving DecidableEq

/-- Parser state: the event built so far plus `currentKey`. -/
structure PState where
  ev : ICalEvent
  currentKey : Option FieldKey
deriving DecidableEq

/-- Unescape `\n` sequences back to newlines, as the global regex
replace in the `DESCRIPTION` case (left-to-right, non-overlapping). -/
def unescNL : List Char → List Char
  | [] => []
  | [c] => [c]
  | c :: c2 :: rest =>
    if c = '\\' && c2 = 'n' then '\n' :: unescNL rest
    else c :: unescNL (c2 :: rest)

/-- Continuation handling: append the trimmed line to the field named by
`currentKey` when that field is set and truthy (a present, non-empty
string).  When `currentKey` names `start` or `end` the source would
string-concatenate onto a `Date` object, corrupting it via JS coercion;
no claim exercises a continuation after `DTSTART`/`DTEND`, and the model
leaves the field unchanged there. -/
def applyCont (ev : ICalEvent) (k : FieldKey) (addition : List Char) : ICalEvent :=
  let app : Option String → Option String := fun f =>
    match f with
    | some s => if s = "" then some s else some (s ++ ⟨addition⟩)
    | none => none
  match k with
  | .summary => { ev with summary := app ev.summary }
  | .description => { ev with description := app ev.description }
  | .location => { ev with location := app ev.location }
  | .uid => { ev with uid := app ev.uid }
  | .recurrence => { ev with recurrence := app ev.recurrence }
  | .startK => ev
  | .endK => ev

/-- Switch on the main property key (the part of the name before the
first semicolon), as in the source's `switch (mainKey)`. -/
def dispatchKey (st : PState) (mainKey : List Char) (value : List Char) : PState :=
  if mainKey = "SUMMARY".data then
    ⟨{ st.ev with summary := some ⟨trimChars value⟩ }, some .summary⟩
  else if mainKey = "DTSTART".data then
    ⟨{ st.ev with startD := parseEventDateTime ⟨trimChars value⟩ }, some .startK⟩
  else if mainKey = "DTEND".data then
    ⟨{ st.ev with endD := parseEventDateTime ⟨trimChars value⟩ }, some .endK⟩
  else if mainKey = "DESCRIPTION".data then
    ⟨{ st.ev with description := some ⟨unescNL (trimChars value)⟩ }, some .description⟩
  else if mainKey = "LOCATION".data then
    ⟨{ st.ev with location := some ⟨trimChars value⟩ }, some .location⟩
  else if mainKey = "UID".data then
    ⟨{ st.ev with uid := some ⟨trimChars value⟩ }, some .uid⟩
  else if mainKey = "RRULE".data then
    ⟨{ st.ev with recurrence := some ⟨trimChars value⟩ }, some .recurrence⟩
  else
    ⟨st.ev, none⟩

/-- Processing of one physical line of the iCal text. -/
def parseLine (st : PState) (line : List Char) : PState :=
  match line with
  | [] => st
  | c :: _ =>
    if c = ' ' || c = '\t' then
      match st.currentKey with
      | some k => ⟨applyCont st.ev k (trimChars line), st.currentKey⟩
      | none => st
    else
      match splitFirst ':' line with
      | none => st
      | some (key, value) => dispatchKey st (key.takeWhile (fun c => c ≠ ';')) value

/-- Source `parseICalEvent`: split into physical lines and fold the
per-line step starting from the empty event. -/
def parseICalEvent (data : String) : ICalEvent :=
  (List.foldl parseLine ⟨{}, none⟩ (splitRN data.data)).ev

/-! ### Attendee validation and the event encoder inside
`createCalendarEventTool` -/

/-- Deny-listed placeholder domains. -/
def exampleDomains : List String :=
  ["example.com", "example.org", "test.com", "domain.com", "company.com", "email.com"]

/-- Deny-listed placeholder local parts. -/
def examplePatterns : List String :=
  ["john@", "jane@", "user@", "test@", "admin@", "demo@"]

/-- Filter body applied to one (already trimmed) attendee address. -/
def attendeeKeep (email : String) : Bool :=
  if email = "" || !(jsIncludes email "@") then false
  else
    let lowerEmail := jsToLower email
    if exampleDomains.any (fun domain => jsEndsWith lowerEmail domain) then false
    else if examplePatterns.any (fun pat => jsStartsWith lowerEmail pat) then false
    else true

/-- Source `validAttendees` pipeline: trim each address, then filter. -/
def validAttendees (attendees : List String) : List String :=
  (attendees.map jsTrim).filter attendeeKeep

/-- One `ATTENDEE` line of the encoder. -/
def attendeeLine (email : String) : String :=
  "ATTENDEE;CN=" ++ email ++ ";ROLE=REQ-PARTICIPANT;PARTSTAT=NEEDS-ACTION;RSVP=TRUE:mailto:" ++ email

/-- Physical lines of the iCalendar text built by
`createCalendarEventTool` (`eventData` before the final `join`).
`vAtts` is the already validated attendee list, `uid` the generated
unique identifier, `organizerEmail` the configured account address and
`now` the current instant used for the three stamp lines. -/
def eventDataLines (uid organizerEmail summary : String) (evStart evEnd : DT)
    (description location : String) (vAtts : List String) (now : DT) : List String :=
  ["BEGIN:VCALENDAR", "VERSION:2.0", "PRODID:-//AI Calendar Tool//EN",
    "CALSCALE:GREGORIAN", "BEGIN:VEVENT",
    "UID:" ++ uid,
    "ORGANIZER;CN=" ++ organizerEmail ++ ":mailto:" ++ organizerEmail,
    "SUMMARY:" ++ escapeICalString summary,
    "DTSTART:" ++ formatICalDate evStart,
    "DTEND:" ++ formatICalDate evEnd] ++
  (if description ≠ "" then ["DESCRIPTION:" ++ escapeICalString description] else []) ++
  (if location ≠ "" then ["LOCATION:" ++ escapeICalString location] else []) ++
  vAtts.map attendeeLine ++
  ["STATUS:CONFIRMED",
    "DTSTAMP:" ++ formatICalDate now,
    "CREATED:" ++ formatICalDate now,
    "LAST-MODIFIED:" ++ formatICalDate now,
    "END:VEVENT", "END:VCALENDAR"]

/-- Character-list join with a CRLF separator between the pieces. -/
def joinLinesCRLF : List (List Char) → List Char
  | [] => []
  | [l] => l
  | l :: l2 :: t => l ++ '\r' :: '\n' :: joinLinesCRLF (l2 :: t)

/-- JS `eventData.join('\r\n')`. -/
def joinCRLF (lines : List String) : String :=
  ⟨joinLinesCRLF (lines.map String.data)⟩

/-- The encoded iCalendar text of `createCalendarEventTool`. -/
def encodeEventData (uid organizerEmail summary : String) (evStart evEnd : DT)
    (description location : String) (vAtts : List String) (now : DT) : String :=
  joinCRLF (eventDataLines uid organizerEmail summary evStart evEnd description location vAtts now)

/-! ### DateUtils.parseRelativeDate and the point resolver parseDateTime -/

/-- Match of the regex `next (\d+) days?` starting exactly at the head
of the list: the literal `next `, a maximal nonempty digit run, then the
literal ` day`. -/
def nextNDaysAt (cs : List Char) : Option Nat :=
  if "next ".data.isPrefixOf cs then
    let rest := cs.drop 5
    let ds := rest.takeWhile Char.isDigit
    if ds ≠ [] && " day".data.isPrefixOf (rest.drop ds.length) then
      some (parseDigits ds)
    else none
  else none

/-- First match of `next (\d+) days?` anywhere in the string. -/
def findNextNDays : List Char → Option Nat
  | [] => none
  | c :: cs =>
    match nextNDaysAt (c :: cs) with
    | some n => some n
    | none => findNextNDays cs

/-- Source `DateUtils.parseRelativeDate`: turn a phrase plus a reference
instant into a start/end range, with the documented priority order and
the default next-7-days window. -/
def parseRelativeDate (input : String) (now : DT) : DT × DT :=
  let lowerInput := jsTrim (jsToLower input)
  if jsIncludes lowerInput "today" then
    (setHoursMs now 0 0 0 0, setHoursMs now 23 59 59 999)
  else if jsIncludes lowerInput "tomorrow" then
    let start := setHoursMs (addDaysKeepTime now 1) 0 0 0 0
    (start, setHoursMs start 23 59 59 999)
  else if jsIncludes lowerInput "this week" then
    let dow := dayOfWeek now
    let diff := now.day - dow + (if dow = 0 then -6 else 1)
    let start := setHoursMs (setDayOfMonth now diff) 0 0 0 0
    (start, setHoursMs (addDaysKeepTime start 6) 23 59 59 999)
  else if jsIncludes lowerInput "next week" then
    let dow := dayOfWeek now
    let diff := now.day - dow + (if dow = 0 then -6 else 1)
    let start := setHoursMs (setDayOfMonth now (diff + 7)) 0 0 0 0
    (start, setHoursMs (addDaysKeepTime start 6) 23 59 59 999)
  else if jsIncludes lowerInput "this month" then
    (mkJsDate now.year (now.month - 1) 1 0 0 0 0,
      mkJsDate now.year now.month 0 23 59 59 999)
  else if jsIncludes lowerInput "next month" then
    (mkJsDate now.year now.month 1 0 0 0 0,
      mkJsDate now.year (now.month + 1) 0 23 59 59 999)
  else
    match findNextNDays lowerInput.data with
    | some days =>
      (setHoursMs now 0 0 0 0, setHoursMs (addDaysKeepTime now (days : Int)) 23 59 59 999)
    | none =>
      (setHoursMs now 0 0 0 0, setHoursMs (addDaysKeepTime now 7) 23 59 59 999)

/-- Match of the time regex `(\d{1,2}):?(\d{2})?\s*(am|pm)?` at a
position whose head is a digit: up to two digits of hours, an optional
colon, an optional two-digit minute group, optional whitespace, then an
optional case-insensitive am/pm marker (`some true` = pm). -/
structure TimeM where
  hours : Nat
  minutes : Nat
  ampm : Option Bool
deriving DecidableEq

/-- Greedy parse of the time regex starting at a digit. -/
def timeMatchAt (cs : List Char) : TimeM :=
  let ds := (cs.takeWhile Char.isDigit).take 2
  let rest := cs.drop ds.length
  let rest2 := match rest with
    | ':' :: r => r
    | _ => rest
  let minTaken : Option (List Char) :=
    if rest2.length ≥ 2 && (rest2.take 2).all Char.isDigit then some (rest2.take 2) else none
  let rest3 := match minTaken with
    | some _ => rest2.drop 2
    | none => rest2
  let rest4 := rest3.dropWhile isJsWS
  let ampm : Option Bool :=
    if (rest4.take 2).map Char.toLower = ['p', 'm'] then some true
    else if (rest4.take 2).map Char.toLower = ['a', 'm'] then some false
    else none
  ⟨parseDigits ds, parseDigits (minTaken.getD ['0']), ampm⟩

/-- First match of the time regex anywhere in the input (the pattern can
match at a position iff that position holds a digit, every other part
being optional). -/
def findTimeMatch : List Char → Option TimeM
  | [] => none
  | c :: cs => if c.isDigit then some (timeMatchAt (c :: cs)) else findTimeMatch cs

/-- The 12-hour clock conversion of the source: `pm` adds 12 except for
12pm, and 12am becomes hour 0. -/
def finalHours (hours : Nat) (isPM : Bool) : Nat :=
  if isPM && hours ≠ 12 then hours + 12
  else if !isPM && hours = 12 then 0
  else hours

/-- Apply the optional time-of-day match found in the original (not
lower-cased — the regex carries the `i` flag) input to a date. -/
def applyTimeOfDay (dt : DT) (input : String) : DT :=
  match findTimeMatch input.data with
  | none => dt
  | some tm =>
    setHoursMs dt (finalHours tm.hours (tm.ampm = some true) : Nat) (tm.minutes : Nat) 0 0

/-- Weekday names with their `getDay` indices, the array the source
calls `indexOf` on. -/
def weekdayNames : List (String × Nat) :=
  [("sunday", 0), ("monday", 1), ("tuesday", 2), ("wednesday", 3),
    ("thursday", 4), ("friday", 5), ("saturday", 6)]

/-- Match of `next\s+(monday|...|sunday)` starting exactly here. -/
def weekdayAt (cs : List Char) : Option Nat :=
  if "next".data.isPrefixOf cs then
    let rest := cs.drop 4
    let wsp := rest.takeWhile isJsWS
    if wsp = [] then none
    else
      (weekdayNames.find? (fun p => p.1.data.isPrefixOf (rest.drop wsp.length))).map (fun p => p.2)
  else none

/-- First match of `next\s+(weekday)` anywhere in the lower-cased input. -/
def findNextWeekday : List Char → Option Nat
  | [] => none
  | c :: cs =>
    match weekdayAt (c :: cs) with
    | some n => some n
    | none => findNextWeekday cs

/-- Weekday offset of the source: `(targetDay - currentDay + 7) % 7 || 7`. -/
def daysUntilTarget (targetDay currentDay : Int) : Int :=
  let k := (targetDay - currentDay + 7).emod 7
  if k = 0 then 7 else k

/-- Source `parseDateTime` (the `userTimezone` argument of the source is
never used in its body and is dropped).  The final generic
`new Date(input)` parse is engine-defined and abstracted as the
`stdParse` argument; when it fails the reference instant is returned
unchanged. -/
def parseDateTime (stdParse : String → Option DT) (input : String) (referenceDate : DT) : DT :=
  let lowerInput := jsTrim (jsToLower input)
  if jsIncludes lowerInput "tomorrow" then
    applyTimeOfDay (addDaysKeepTime referenceDate 1) input
  else
    match findNextWeekday lowerInput.data with
    | some targetDay =>
      let currentDay := dayOfWeek referenceDate
      applyTimeOfDay
        (addDaysKeepTime referenceDate (daysUntilTarget (targetDay : Int) currentDay)) input
    | none =>
      match stdParse input with
      | some parsed => parsed
      | none => referenceDate

/-! ### ConflictDetector -/

/-- Source `DateUtils.eventsOverlap`: strict half-open interval overlap
via the epoch-millisecond view of the four `Date`s. -/
def eventsOverlap (event1Start event1End event2Start event2End : DT) : Bool :=
  decide (toMs event1Start < toMs event2End) && decide (toMs event1End > toMs event2Start)

/-! ### The four store operations

Effects are explicit: a `StoredObj` list stands for what
`fetchCalendarObjects` returns (the tools re-filter defensively, so the
model hands every stored object to the tool), booleans stand for the
success of credential checks / connection attempts / calendar listing,
and result records carry trace fields (`wrote`, `connectAttempts`,
`sleeps`) recording the store interactions performed. -/

structure StoredObj where
  data : String
  etag : String
  url : String
deriving DecidableEq

/-- Event record built by `readCalendarTool` from one parsed object.
`startLocal`/`endLocal` are timezone-formatted display strings in the
source; the display formatting is abstracted as the instant itself. -/
structure REvent where
  summary : String
  description : String
  startD : DT
  endD : DT
  location : String
  uid : String
  recurrence : Option String
  startLocal : DT
  endLocal : Option DT
  etag : String
  url : String
deriving DecidableEq

/-- JS `x || dflt` for an optional string field (empty strings are
falsy). -/
def jsOr (o : Option String) (dflt : String) : String :=
  match o with
  | some s => if s = "" then dflt else s
  | none => dflt

/-- Mapping of one raw object in `readCalendarTool`, `none` when the
parsed event has no start (the tool drops it with a warning). -/
def objToEvent (o : StoredObj) : Option REvent :=
  let p := parseICalEvent o.data
  match p.startD with
  | none => none
  | some s =>
    some ⟨jsOr p.summary "No Title", jsOr p.description "", s, p.endD.getD s,
      jsOr p.location "", jsOr p.uid "",
      (match p.recurrence with
       | some r => if r = "" then none else some r
       | none => none),
      s, p.endD, o.etag, o.url⟩

/-- Stable insertion into a start-ascending list (new element goes after
equal keys, matching the stable JS sort with comparator
`a.start - b.start`). -/
def insertByStart (e : REvent) : List REvent → List REvent
  | [] => [e]
  | x :: xs => if toMs e.startD < toMs x.startD then e :: x :: xs else x :: insertByStart e xs

/-- Stable sort ascending by start instant. -/
def sortByStart (l : List REvent) : List REvent :=
  l.foldl (fun acc e => insertByStart e acc) []

structure ReadEnv where
  credsOk : Bool
  connOk : Bool
  calNonempty : Bool
  objs : List StoredObj
  now : DT

structure ReadRes where
  success : Bool
  events : List REvent
  connectAttempts : Nat
deriving DecidableEq

/-- Source `readCalendarTool`: validation, a single connection attempt,
range resolution through `parseRelativeDate`, decode, the defensive
in-range re-filter on the event start, and the ascending sort.  (The
display-only `eventsByDay` grouping is not modelled.) -/
def readCalendarModel (env : ReadEnv) (timeRange userTimezone : String) : ReadRes :=
  if !env.credsOk then ⟨false, [], 0⟩
  else if userTimezone = "" then ⟨false, [], 0⟩
  else if !env.connOk then ⟨false, [], 1⟩
  else if !env.calNonempty then ⟨false, [], 1⟩
  else
    let range := parseRelativeDate timeRange env.now
    let events := (env.objs.filterMap objToEvent).filter
      (fun e => decide (toMs range.1 ≤ toMs e.startD) && decide (toMs e.startD ≤ toMs range.2))
    ⟨true, sortByStart events, 1⟩

/-- One conflict entry returned by `checkCalendarConflictsTool`. -/
structure ConflictItem where
  summary : String
  startLocal : DT
  endLocal : Option DT
  uid : String
deriving DecidableEq

structure ConflictRes where
  success : Bool
  hasConflicts : Bool
  conflicts : List ConflictItem
  proposedStart : Option DT
  proposedEnd : Option DT
deriving DecidableEq

/-- Source `checkCalendarConflictsTool`: resolve the proposed instants,
format the day of the proposed start as `MM/DD/YYYY`
(`toLocaleDateString('en-US', ...)`, no `timeZone` option), hand that
string to `readCalendarTool` as its `timeRange`, and flag the fetched
events overlapping the proposed interval. -/
def formatDayUS (dt : DT) : String :=
  ⟨padStartChars 2 '0' (natDigits dt.month.toNat) ++
    '/' :: (padStartChars 2 '0' (natDigits dt.day.toNat) ++ '/' :: natDigits dt.year.toNat)⟩

def checkConflictsModel (env : ReadEnv) (stdParse : String → Option DT)
    (startTime endTime userTimezone : String) : ConflictRes :=
  if userTimezone = "" then ⟨false, false, [], none, none⟩
  else
    let eventStart := parseDateTime stdParse startTime env.now
    let eventEnd := parseDateTime stdParse endTime env.now
    let dayString := formatDayUS eventStart
    let rd := readCalendarModel env dayString userTimezone
    if !rd.success then ⟨false, false, [], none, none⟩
    else
      let conflicts := rd.events.filter
        (fun e => eventsOverlap eventStart eventEnd e.startD e.endD)
      ⟨true, decide (0 < conflicts.length),
        conflicts.map (fun e => ⟨e.summary, e.startLocal, e.endLocal, e.uid⟩),
        some eventStart, some eventEnd⟩

/-! ### Create, with its bounded connection retry loop -/

structure ConnectTrace where
  ok : Bool
  attempts : Nat
  sleeps : Nat
deriving DecidableEq

/-- The `while (retries > 0)` loop of `createCalendarEventTool`:
`attempt i` is the outcome of the i-th `createDAVClient` call; on
failure the counter is decremented, the error is rethrown when it hits
zero, and otherwise a fixed 1-second sleep precedes the next attempt
(each performed sleep is counted in `sleeps`). -/
def connectLoop (attempt : Nat → Bool) : Nat → Nat → Nat → ConnectTrace
  | 0, idx, slps => ⟨false, idx, slps⟩
  | retries + 1, idx, slps =>
    if attempt idx then ⟨true, idx + 1, slps⟩
    else if retries = 0 then ⟨false, idx + 1, slps⟩
    else connectLoop attempt retries (idx + 1) (slps + 1)

/-- Connection acquisition during Create: the loop entered with
`retries = 3`. -/
def connectWithRetry (attempt : Nat → Bool) : ConnectTrace :=
  connectLoop attempt 3 0 0

structure CreateEnv where
  credsOk : Bool
  readConnOk : Bool
  calNonempty : Bool
  objs : List StoredObj
  now : DT
  connect : Nat → Bool
  uid : String
  email : String

inductive CreateOutcome where
  | errNoCreds
  | errNoTz
  | errBadTimes
  | conflict (conflicts : List ConflictItem) (proposedSummary : String)
      (proposedStart proposedEnd : Option DT)
  | errConn
  | errNoCalendars
  | created (uid summary : String) (attendees : List String) (icalText : String)
deriving DecidableEq

structure CreateRes where
  outcome : CreateOutcome
  wrote : Bool
  connectAttempts : Nat
  sleeps : Nat
deriving DecidableEq

/-- Source `createCalendarEventTool`.  `wrote` records whether
`createCalendarObject` was called; `connectAttempts`/`sleeps` trace the
retry loop (the separate single connection made inside the nested
`readCalendarTool` call is not counted here).  The conflict check is
only invoked when `forceCreate` is false, and a failed check
(`success = false`) lets creation proceed, exactly as in the source. -/
def createModel (env : CreateEnv) (stdParse : String → Option DT)
    (summary startTime endTime description location : String)
    (attendees : List String) (userTimezone : String) (forceCreate : Bool) : CreateRes :=
  if !env.credsOk then ⟨.errNoCreds, false, 0, 0⟩
  else if userTimezone = "" then ⟨.errNoTz, false, 0, 0⟩
  else
    let eventStart := parseDateTime stdParse startTime env.now
    let eventEnd := parseDateTime stdParse endTime env.now
    if toMs eventEnd ≤ toMs eventStart then ⟨.errBadTimes, false, 0, 0⟩
    else
      let cr := checkConflictsModel ⟨env.credsOk, env.readConnOk, env.calNonempty, env.objs, env.now⟩
        stdParse startTime endTime userTimezone
      if !forceCreate && (cr.success && cr.hasConflicts) then
        ⟨.conflict cr.conflicts summary cr.proposedStart cr.proposedEnd, false, 0, 0⟩
      else
        let tr := connectWithRetry env.connect
        if !tr.ok then ⟨.errConn, false, tr.attempts, tr.sleeps⟩
        else if !env.calNonempty then ⟨.errNoCalendars, false, tr.attempts, tr.sleeps⟩
        else
          let vAtts := validAttendees attendees
          let icalText := encodeEventData env.uid env.email summary eventStart eventEnd
            description location vAtts env.now
          ⟨.created env.uid summary vAtts icalText, true, tr.attempts, tr.sleeps⟩

/-! ### Delete -/

structure DeleteEnv where
  credsOk : Bool
  connOk : Bool
  calNonempty : Bool
  objs : List StoredObj

inductive DeleteOutcome where
  | errNoCreds
  | errNoTz
  | errConn
  | errNoCalendars
  | notFound (suggestion : String)
  | deleted (summary : Option String) (uid : Option String) (url : String) (etagUsed : String)
deriving DecidableEq

structure DeleteRes where
  outcome : DeleteOutcome
  deletedUrl : Option String
  connectAttempts : Nat
deriving DecidableEq

/-- Match predicate of the delete scan: parsed UID strictly equals the
identifier, or the parsed summary contains the identifier
case-insensitively (JS optional chaining: a missing summary never
matches). -/
def deleteMatch (eventIdentifier : String) (o : StoredObj) : Bool :=
  let p := parseICalEvent o.data
  decide (p.uid = some eventIdentifier) ||
    (match p.summary with
     | some s => jsIncludes (jsToLower s) (jsToLower eventIdentifier)
     | none => false)

/-- Source `deleteCalendarEventTool`: validation, one connection
attempt, fetch of all objects with no range restriction, the sequential
first-match scan (the source's `for`/`break` loop is `List.find?`), the
structured not-found result, and deletion by URL with an empty etag.
After the scan the source checks `if (!eventToDelete || !eventUrl)`:
the parsed event object is always truthy, but the stored URL is falsy
when it is the empty string, so a selected object with an empty locator
also yields the not-found result and nothing is deleted. -/
def deleteCalendarEventModel (env : DeleteEnv) (eventIdentifier userTimezone : String) : DeleteRes :=
  if !env.credsOk then ⟨.errNoCreds, none, 0⟩
  else if userTimezone = "" then ⟨.errNoTz, none, 0⟩
  else if !env.connOk then ⟨.errConn, none, 1⟩
  else if !env.calNonempty then ⟨.errNoCalendars, none, 1⟩
  else
    match env.objs.find? (deleteMatch eventIdentifier) with
    | none =>
      ⟨.notFound "Try using 'read_calendar' to list events and find the correct identifier.",
        none, 1⟩
    | some o =>
      if o.url = "" then
        ⟨.notFound "Try using 'read_calendar' to list events and find the correct identifier.",
          none, 1⟩
      else
        let p := parseICalEvent o.data
        ⟨.deleted p.summary p.uid o.url "", some o.url, 1⟩

/-! ### Side conditions and spec-side predicates used by the theorems -/

/-- Text free of every character the encoder escapes or strips, and
stable under trimming.  Under this condition a `SUMMARY` / `LOCATION` /
`DESCRIPTION` value survives the encode/decode round trip verbatim. -/
def CleanText (s : String) : Prop :=
  (∀ c ∈ s.data, ¬(c = '\\' ∨ c = ';' ∨ c = ',' ∨ c = '\n' ∨ c = '\r')) ∧ jsTrim s = s

instance (s : String) : Decidable (CleanText s) := by
  unfold CleanText; infer_instance

/-- Text free of line terminators, so that embedding it into one
physical line keeps the line structure of the encoded object. -/
def NoNL (s : String) : Prop := ∀ c ∈ s.data, c ≠ '\n' ∧ c ≠ '\r'

instance (s : String) : Decidable (NoNL s) := by
  unfold NoNL; infer_instance

/-- Calendar fields wide enough for the two-digit (resp. four-digit)
padded printing of `formatICalDate` to be exact, with no sub-second
part (the compact stamp has second granularity). -/
def dtValidFields (dt : DT) : Prop :=
  0 ≤ dt.year ∧ dt.year ≤ 9999 ∧ 0 ≤ dt.month ∧ dt.month ≤ 99 ∧
    0 ≤ dt.day ∧ dt.day ≤ 99 ∧ 0 ≤ dt.hour ∧ dt.hour ≤ 99 ∧
    0 ≤ dt.minute ∧ dt.minute ≤ 99 ∧ 0 ≤ dt.second ∧ dt.second ≤ 99 ∧ dt.ms = 0

instance (dt : DT) : Decidable (dtValidFields dt) := by
  unfold dtValidFields; infer_instance

/-- Attendee-filter predicate transcribed from the words of the claim:
keep an address iff it contains `@`, does not end (lower-cased) with a
deny-listed placeholder domain, and does not start (lower-cased) with a
deny-listed placeholder local part.  Used only to compare against the
source-side `attendeeKeep`. -/
def specAttendeeKeep (a : String) : Bool :=
  jsIncludes a "@" &&
    !(exampleDomains.any (fun d => jsEndsWith (jsToLower a) d)) &&
    !(examplePatterns.any (fun p => jsStartsWith (jsToLower a) p))

/-! ## Theorems -/

/-- The empty string has no `@`, so the source's extra falsiness check on
the trimmed address changes nothing against the spec-side predicate. -/
theorem attendeeKeep_eq_spec (a : String) : attendeeKeep a = specAttendeeKeep a := by
  by_cases h0 : a = ""
  · subst h0; decide
  · unfold attendeeKeep specAttendeeKeep
    cases h1 : jsIncludes a "@" <;>
      cases h2 : exampleDomains.any (fun d => jsEndsWith (jsToLower a) d) <;>
        cases h3 : examplePatterns.any (fun p => jsStartsWith (jsToLower a) p) <;>
          simp [h0, h1, h2, h3]

/-- C4: `DateUtils.eventsOverlap` returns true for ranges `a = [a₁, a₂)`
and `b = [b₁, b₂)` exactly when `a.start < b.end` and `a.end > b.start`;
in particular whenever `a.end ≤ b.start` it returns false, so
back-to-back events sharing an exact boundary instant do not conflict. -/
theorem C4_eventsOverlap_half_open (a₁ a₂ b₁ b₂ : DT) :
    (eventsOverlap a₁ a₂ b₁ b₂ = true ↔ toMs a₁ < toMs b₂ ∧ toMs a₂ > toMs b₁) ∧
    (toMs a₂ ≤ toMs b₁ → eventsOverlap a₁ a₂ b₁ b₂ = false) := by
  constructor
  · simp [eventsOverlap]
  · intro h
    simp only [eventsOverlap, Bool.and_eq_false_iff, decide_eq_false_iff_not, not_lt]
    omega

/-- Witness for C4 at a concrete back-to-back pair: the 10–11 event and
the 11–12 event on the same day do not overlap. -/
theorem C4_eventsOverlap_half_open_witness :
    toMs (⟨2025, 7, 25, 11, 0, 0, 0⟩ : DT) ≤ toMs (⟨2025, 7, 25, 11, 0, 0, 0⟩ : DT) ∧
    eventsOverlap ⟨2025, 7, 25, 10, 0, 0, 0⟩ ⟨2025, 7, 25, 11, 0, 0, 0⟩
      ⟨2025, 7, 25, 11, 0, 0, 0⟩ ⟨2025, 7, 25, 12, 0, 0, 0⟩ = false :=
  ⟨le_refl _,
    (C4_eventsOverlap_half_open ⟨2025, 7, 25, 10, 0, 0, 0⟩ ⟨2025, 7, 25, 11, 0, 0, 0⟩
      ⟨2025, 7, 25, 11, 0, 0, 0⟩ ⟨2025, 7, 25, 12, 0, 0, 0⟩).2 (le_refl _)⟩

/-- C8: the attendee validation keeps exactly the trimmed addresses that
contain `@` and neither end (lower-cased) with a deny-listed placeholder
domain nor start with a deny-listed placeholder local part; in
particular `["john@example.com", "real.person@acme.io"]` yields exactly
`["real.person@acme.io"]`. -/
theorem C8_attendee_filter :
    validAttendees ["john@example.com", "real.person@acme.io"] = ["real.person@acme.io"] ∧
    ∀ l : List String, validAttendees l = (l.map jsTrim).filter specAttendeeKeep := by
  constructor
  · decide
  · intro l
    unfold validAttendees
    exact List.filter_congr (fun a _ => attendeeKeep_eq_spec a)

/-- C9: the deny-list domains are matched by plain string suffix on the
whole lower-cased address, so any address merely ending in a deny-listed
domain string is dropped; in particular `alice@mycompany.com` (suffix
`company.com`) and `bob@bestemail.com` (suffix `email.com`) are both
silently dropped although their actual domains are not deny-listed. -/
theorem C9_suffix_only_matching :
    (∀ e d : String, d ∈ exampleDomains → jsEndsWith (jsToLower (jsTrim e)) d = true →
      attendeeKeep (jsTrim e) = false ∧ ∀ l : List String, jsTrim e ∉ validAttendees l) ∧
    validAttendees ["alice@mycompany.com", "bob@bestemail.com"] = [] := by
  constructor
  · intro e d hd hs
    have hk : attendeeKeep (jsTrim e) = false := by
      unfold attendeeKeep
      by_cases h0 : jsTrim e = "" || !(jsIncludes (jsTrim e) "@")
      · simp [h0]
      · rw [if_neg (by simpa using h0)]
        have hany : exampleDomains.any (fun domain => jsEndsWith (jsToLower (jsTrim e)) domain) = true :=
          List.any_eq_true.mpr ⟨d, hd, hs⟩
        simp [hany]
    refine ⟨hk, fun l hmem => ?_⟩
    have := List.of_mem_filter (l := l.map jsTrim) (p := attendeeKeep) hmem
    rw [hk] at this
    exact Bool.false_ne_true this
  · decide

/-- Closed form of the Create connection retry loop: outcome as a
function of the three possible attempt results. -/
theorem connectWithRetry_eq (att : Nat → Bool) :
    connectWithRetry att =
      if att 0 then ⟨true, 1, 0⟩
      else if att 1 then ⟨true, 2, 1⟩
      else if att 2 then ⟨true, 3, 2⟩
      else ⟨false, 3, 2⟩ := by
  cases h0 : att 0 <;> cases h1 : att 1 <;> cases h2 : att 2 <;>
    simp [connectWithRetry, connectLoop, h0, h1, h2]

/-- C6: store-connection acquisition during Create is attempted at most
3 times, with exactly one fixed synchronous 1-second sleep between
consecutive attempts (`sleeps + 1 = attempts`, hence no other backoff);
the loop is a total function, and after three consecutive failures the
connection error is surfaced by `createCalendarEventTool`; Delete and
List (and hence CheckConflicts, which goes through List) perform at most
a single connection attempt with no retry. -/
theorem C6_create_retry_contract (att : Nat → Bool) :
    (connectWithRetry att).attempts ≤ 3 ∧
    (connectWithRetry att).sleeps + 1 = (connectWithRetry att).attempts ∧
    (att 0 = false → att 1 = false → att 2 = false →
      connectWithRetry att = ⟨false, 3, 2⟩) ∧
    (∀ (env : CreateEnv) (sp : String → Option DT)
        (summary startTime endTime description location : String)
        (attendees : List String) (tz : String),
      env.credsOk = true → tz ≠ "" →
      toMs (parseDateTime sp startTime env.now) < toMs (parseDateTime sp endTime env.now) →
      env.connect 0 = false → env.connect 1 = false → env.connect 2 = false →
      createModel env sp summary startTime endTime description location attendees tz true =
        ⟨.errConn, false, 3, 2⟩) ∧
    (∀ (env : DeleteEnv) (id tz : String),
      (deleteCalendarEventModel env id tz).connectAttempts ≤ 1) ∧
    (∀ (env : ReadEnv) (tr tz : String),
      (readCalendarModel env tr tz).connectAttempts ≤ 1) := by
  refine ⟨?_, ?_, ?_, ?_, ?_, ?_⟩
  · rw [connectWithRetry_eq]
    cases h0 : att 0 <;> cases h1 : att 1 <;> cases h2 : att 2 <;> simp
  · rw [connectWithRetry_eq]
    cases h0 : att 0 <;> cases h1 : att 1 <;> cases h2 : att 2 <;> simp
  · intro h0 h1 h2
    rw [connectWithRetry_eq, if_neg (by simp [h0]), if_neg (by simp [h1]), if_neg (by simp [h2])]
  · intro env sp summary startTime endTime description location attendees tz hc htz horder
      hf0 hf1 hf2
    have hconn : connectWithRetry env.connect = ⟨false, 3, 2⟩ := by
      rw [connectWithRetry_eq, if_neg (by simp [hf0]), if_neg (by simp [hf1]),
        if_neg (by simp [hf2])]
    unfold createModel
    rw [hc]
    rw [if_neg (by simp)]
    rw [if_neg htz]
    rw [if_neg (by omega)]
    simp only [Bool.not_true, Bool.false_and, Bool.false_eq_true, if_false, hconn]
    rfl
  · intro env id tz
    unfold deleteCalendarEventModel
    repeat' split
    all_goals first | decide | exact Nat.le_refl 1
  · intro env tr tz
    unfold readCalendarModel
    repeat' split
    all_goals first | decide | exact Nat.le_refl 1

/-- Witness for C6: all-failing attempts exhaust the bound with two
sleeps, and a concrete Create invocation with an always-failing
connection surfaces the connection error without writing. -/
theorem C6_create_retry_contract_witness :
    connectWithRetry (fun _ => false) = ⟨false, 3, 2⟩ ∧
    createModel ⟨true, true, true, [], ⟨2025, 7, 14, 0, 0, 0, 0⟩, fun _ => false, "u1", "org@acme.io"⟩
      (fun s => if s = "a" then some ⟨2025, 7, 15, 10, 0, 0, 0⟩
        else if s = "b" then some ⟨2025, 7, 15, 11, 0, 0, 0⟩ else none)
      "Event" "a" "b" "" "" [] "UTC" true = ⟨.errConn, false, 3, 2⟩ ∧
    (deleteCalendarEventModel ⟨true, true, true, []⟩ "x" "UTC").connectAttempts ≤ 1 :=
  ⟨(C6_create_retry_contract (fun _ => false)).2.2.1 rfl rfl rfl,
    (C6_create_retry_contract (fun _ => false)).2.2.2.1
      ⟨true, true, true, [], ⟨2025, 7, 14, 0, 0, 0, 0⟩, fun _ => false, "u1", "org@acme.io"⟩
      (fun s => if s = "a" then some ⟨2025, 7, 15, 10, 0, 0, 0⟩
        else if s = "b" then some ⟨2025, 7, 15, 11, 0, 0, 0⟩ else none)
      "Event" "a" "b" "" "" [] "UTC" rfl (by decide) (by decide) rfl rfl rfl,
    (C6_create_retry_contract (fun _ => false)).2.2.2.2.1 ⟨true, true, true, []⟩ "x" "UTC"⟩

/-- C7: with reference instant 2025-07-14 (a Monday), `parseDateTime`
resolves "next Monday 10 AM" to 2025-07-21 at 10:00 local, for any
behaviour of the engine-level generic date parser (that branch is not
reached); the weekday offset is `(target - current + 7) mod 7` with `0`
mapped to `7`, and the 12-hour rules are `12am -> 0`, `12pm -> 12`, and
otherwise `pm` adds 12. -/
theorem C7_next_monday_resolution (stdParse : String → Option DT) :
    parseDateTime stdParse "next Monday 10 AM" ⟨2025, 7, 14, 0, 0, 0, 0⟩ =
      ⟨2025, 7, 21, 10, 0, 0, 0⟩ ∧
    (∀ t c : Int, daysUntilTarget t c =
      if (t - c + 7).emod 7 = 0 then 7 else (t - c + 7).emod 7) ∧
    finalHours 12 false = 0 ∧ finalHours 12 true = 12 ∧
    (∀ h : Nat, h ≠ 12 → finalHours h true = h + 12) := by
  refine ⟨rfl, fun t c => rfl, rfl, rfl, ?_⟩
  intro h hh
  unfold finalHours
  rw [if_pos (by simp [hh])]

/-- Witness for C7: the concrete resolution with a trivial generic
parser, and the pm-rule at hour 10. -/
theorem C7_next_monday_resolution_witness :
    parseDateTime (fun _ => none) "next Monday 10 AM" ⟨2025, 7, 14, 0, 0, 0, 0⟩ =
      ⟨2025, 7, 21, 10, 0, 0, 0⟩ ∧ (10 : Nat) ≠ 12 ∧ finalHours 10 true = 22 :=
  ⟨(C7_next_monday_resolution (fun _ => none)).1, by decide,
    (C7_next_monday_resolution (fun _ => none)).2.2.2.2 10 (by decide)⟩

/-- C2 evaluation (code bug): the proposed slot 2025-07-25 14:00–15:00
genuinely overlaps a stored event of that day, but with the current
instant at 2025-07-14 the conflict check reports no conflict: the
`MM/DD/YYYY` day string built from the proposed start is not recognised
by `parseRelativeDate`, which therefore falls back to the default
next-7-days window from "now" instead of the single day containing the
proposed start, and the 2025-07-25 event is filtered out. -/
theorem C2_day_window_bug_eval :
    eventsOverlap ⟨2025, 7, 25, 14, 0, 0, 0⟩ ⟨2025, 7, 25, 15, 0, 0, 0⟩
      ⟨2025, 7, 25, 14, 30, 0, 0⟩ ⟨2025, 7, 25, 14, 45, 0, 0⟩ = true ∧
    formatDayUS ⟨2025, 7, 25, 14, 0, 0, 0⟩ = "07/25/2025" ∧
    parseRelativeDate "07/25/2025" ⟨2025, 7, 14, 12, 0, 0, 0⟩ =
      (⟨2025, 7, 14, 0, 0, 0, 0⟩, ⟨2025, 7, 21, 23, 59, 59, 999⟩) ∧
    checkConflictsModel
      ⟨true, true, true,
        [⟨"BEGIN:VCALENDAR\r\nBEGIN:VEVENT\r\nUID:ev1\r\nSUMMARY:Standup\r\nDTSTART:20250725T143000Z\r\nDTEND:20250725T144500Z\r\nEND:VEVENT\r\nEND:VCALENDAR",
          "e1", "https://cal/ev1.ics"⟩],
        ⟨2025, 7, 14, 12, 0, 0, 0⟩⟩
      (fun s => if s = "2025-07-25T14:00:00" then some ⟨2025, 7, 25, 14, 0, 0, 0⟩
        else if s = "2025-07-25T15:00:00" then some ⟨2025, 7, 25, 15, 0, 0, 0⟩ else none)
      "2025-07-25T14:00:00" "2025-07-25T15:00:00" "UTC" =
      ⟨true, false, [], some ⟨2025, 7, 25, 14, 0, 0, 0⟩, some ⟨2025, 7, 25, 15, 0, 0, 0⟩⟩ ∧
    checkConflictsModel
      ⟨true, true, true,
        [⟨"BEGIN:VCALENDAR\r\nBEGIN:VEVENT\r\nUID:ev1\r\nSUMMARY:Standup\r\nDTSTART:20250725T143000Z\r\nDTEND:20250725T144500Z\r\nEND:VEVENT\r\nEND:VCALENDAR",
          "e1", "https://cal/ev1.ics"⟩],
        ⟨2025, 7, 25, 9, 0, 0, 0⟩⟩
      (fun s => if s = "2025-07-25T14:00:00" then some ⟨2025, 7, 25, 14, 0, 0, 0⟩
        else if s = "2025-07-25T15:00:00" then some ⟨2025, 7, 25, 15, 0, 0, 0⟩ else none)
      "2025-07-25T14:00:00" "2025-07-25T15:00:00" "UTC" =
      ⟨true, true,
        [⟨"Standup", ⟨2025, 7, 25, 14, 30, 0, 0⟩, some ⟨2025, 7, 25, 14, 45, 0, 0⟩, "ev1"⟩],
        some ⟨2025, 7, 25, 14, 0, 0, 0⟩, some ⟨2025, 7, 25, 15, 0, 0, 0⟩⟩ := by
  decide

/-- C3: a Create invocation with `forceCreate = false` whose conflict
check succeeds and reports at least one conflict returns the structured
conflict result carrying the conflict list and the proposed-event
summary, never calls `createCalendarObject` (`wrote = false`), and does
not even enter the store-connection retry loop. -/
theorem C3_conflict_blocks_store_write (env : CreateEnv) (sp : String → Option DT)
    (summary startTime endTime description location : String)
    (attendees : List String) (tz : String)
    (hc : env.credsOk = true) (htz : tz ≠ "")
    (horder : toMs (parseDateTime sp startTime env.now) <
      toMs (parseDateTime sp endTime env.now))
    (hsucc : (checkConflictsModel ⟨env.credsOk, env.readConnOk, env.calNonempty, env.objs, env.now⟩
      sp startTime endTime tz).success = true)
    (hconf : (checkConflictsModel ⟨env.credsOk, env.readConnOk, env.calNonempty, env.objs, env.now⟩
      sp startTime endTime tz).hasConflicts = true) :
    createModel env sp summary startTime endTime description location attendees tz false =
      ⟨.conflict
        (checkConflictsModel ⟨env.credsOk, env.readConnOk, env.calNonempty, env.objs, env.now⟩
          sp startTime endTime tz).conflicts
        summary
        (checkConflictsModel ⟨env.credsOk, env.readConnOk, env.calNonempty, env.objs, env.now⟩
          sp startTime endTime tz).proposedStart
        (checkConflictsModel ⟨env.credsOk, env.readConnOk, env.calNonempty, env.objs, env.now⟩
          sp startTime endTime tz).proposedEnd,
        false, 0, 0⟩ := by
  unfold createModel
  rw [if_neg (show ¬(!env.credsOk) = true by simp [hc])]
  rw [if_neg htz]
  rw [if_neg (show ¬(toMs (parseDateTime sp endTime env.now) ≤
    toMs (parseDateTime sp startTime env.now)) by omega)]
  simp only [hsucc, hconf, Bool.not_false, Bool.and_self, Bool.true_and, if_true]

/-- Witness for C3: the concrete far-enough store event makes the
check report a conflict and Create returns it without writing. -/
theorem C3_conflict_blocks_store_write_witness :
    (checkConflictsModel
      ⟨true, true, true,
        [⟨"BEGIN:VCALENDAR\r\nBEGIN:VEVENT\r\nUID:ev1\r\nSUMMARY:Standup\r\nDTSTART:20250725T143000Z\r\nDTEND:20250725T144500Z\r\nEND:VEVENT\r\nEND:VCALENDAR",
          "e1", "https://cal/ev1.ics"⟩],
        ⟨2025, 7, 25, 9, 0, 0, 0⟩⟩
      (fun s => if s = "2025-07-25T14:00:00" then some ⟨2025, 7, 25, 14, 0, 0, 0⟩
        else if s = "2025-07-25T15:00:00" then some ⟨2025, 7, 25, 15, 0, 0, 0⟩ else none)
      "2025-07-25T14:00:00" "2025-07-25T15:00:00" "UTC").success = true ∧
    (checkConflictsModel
      ⟨true, true, true,
        [⟨"BEGIN:VCALENDAR\r\nBEGIN:VEVENT\r\nUID:ev1\r\nSUMMARY:Standup\r\nDTSTART:20250725T143000Z\r\nDTEND:20250725T144500Z\r\nEND:VEVENT\r\nEND:VCALENDAR",
          "e1", "https://cal/ev1.ics"⟩],
        ⟨2025, 7, 25, 9, 0, 0, 0⟩⟩
      (fun s => if s = "2025-07-25T14:00:00" then some ⟨2025, 7, 25, 14, 0, 0, 0⟩
        else if s = "2025-07-25T15:00:00" then some ⟨2025, 7, 25, 15, 0, 0, 0⟩ else none)
      "2025-07-25T14:00:00" "2025-07-25T15:00:00" "UTC").hasConflicts = true ∧
    createModel
      ⟨true, true, true,
        [⟨"BEGIN:VCALENDAR\r\nBEGIN:VEVENT\r\nUID:ev1\r\nSUMMARY:Standup\r\nDTSTART:20250725T143000Z\r\nDTEND:20250725T144500Z\r\nEND:VEVENT\r\nEND:VCALENDAR",
          "e1", "https://cal/ev1.ics"⟩],
        ⟨2025, 7, 25, 9, 0, 0, 0⟩, fun _ => true, "uid1@ai-calendar", "org@acme.io"⟩
      (fun s => if s = "2025-07-25T14:00:00" then some ⟨2025, 7, 25, 14, 0, 0, 0⟩
        else if s = "2025-07-25T15:00:00" then some ⟨2025, 7, 25, 15, 0, 0, 0⟩ else none)
      "My Event" "2025-07-25T14:00:00" "2025-07-25T15:00:00" "" "" [] "UTC" false =
      ⟨.conflict
        [⟨"Standup", ⟨2025, 7, 25, 14, 30, 0, 0⟩, some ⟨2025, 7, 25, 14, 45, 0, 0⟩, "ev1"⟩]
        "My Event" (some ⟨2025, 7, 25, 14, 0, 0, 0⟩) (some ⟨2025, 7, 25, 15, 0, 0, 0⟩),
        false, 0, 0⟩ := by
  refine ⟨by decide, by decide, ?_⟩
  rw [C3_conflict_blocks_store_write
    ⟨true, true, true,
      [⟨"BEGIN:VCALENDAR\r\nBEGIN:VEVENT\r\nUID:ev1\r\nSUMMARY:Standup\r\nDTSTART:20250725T143000Z\r\nDTEND:20250725T144500Z\r\nEND:VEVENT\r\nEND:VCALENDAR",
        "e1", "https://cal/ev1.ics"⟩],
      ⟨2025, 7, 25, 9, 0, 0, 0⟩, fun _ => true, "uid1@ai-calendar", "org@acme.io"⟩
    (fun s => if s = "2025-07-25T14:00:00" then some ⟨2025, 7, 25, 14, 0, 0, 0⟩
      else if s = "2025-07-25T15:00:00" then some ⟨2025, 7, 25, 15, 0, 0, 0⟩ else none)
    "My Event" "2025-07-25T14:00:00" "2025-07-25T15:00:00" "" "" [] "UTC"
    rfl (by decide) (by decide) (by decide) (by decide)]
  decide

/-- Searching for the empty needle always succeeds, as JS `includes`. -/
theorem charsContains_nil (hay : List Char) : charsContains [] hay = true := by
  cases hay <;> simp [charsContains, List.isPrefixOf]

/-- JS `s.includes("")` is true for every string. -/
theorem jsIncludes_empty_needle (s : String) : jsIncludes s "" = true :=
  charsContains_nil s.data

/-- With the empty identifier, the delete match predicate accepts
exactly the objects whose parse has a summary or an empty-string UID. -/
theorem deleteMatch_empty (o : StoredObj) :
    deleteMatch "" o =
      (decide ((parseICalEvent o.data).uid = some "") ||
        (parseICalEvent o.data).summary.isSome) := by
  unfold deleteMatch
  cases h : (parseICalEvent o.data).summary with
  | none => simp [h]
  | some s =>
    have h0 : jsToLower "" = "" := rfl
    simp [h, h0, jsIncludes_empty_needle]

/-- First match of a predicate across an explicit decomposition. -/
theorem find?_append_first {α : Type} (p : α → Bool) (l1 : List α) (o : α) (l2 : List α)
    (h1 : ∀ x ∈ l1, p x = false) (h2 : p o = true) :
    (l1 ++ o :: l2).find? p = some o := by
  induction l1 with
  | nil => rw [List.nil_append, List.find?_cons_of_pos _ h2]
  | cons a t ih =>
    rw [List.cons_append, List.find?_cons_of_neg _ (by simp [h1 a (by simp)])]
    exact ih (fun x hx => h1 x (by simp [hx]))

/-- C5 counterexample: with an identifier matching two stored events by
substring, where the first match carries an empty store locator, the
source's falsy-URL guard (`if (!eventToDelete || !eventUrl)`) returns
the structured not-found result and deletes nothing — against the
claim, which promises that the first match in store-returned order is
deleted and reserves not-found for the no-match case. -/
theorem C5_delete_empty_url_counterexample :
    deleteMatch "meeting"
      ⟨"BEGIN:VEVENT\r\nUID:aaa\r\nSUMMARY:Team Meeting\r\nDTSTART:20250720T100000Z\r\nEND:VEVENT",
        "t1", ""⟩ = true ∧
    deleteMatch "meeting"
      ⟨"BEGIN:VEVENT\r\nUID:bbb\r\nSUMMARY:Meeting with Bob\r\nDTSTART:20250721T100000Z\r\nEND:VEVENT",
        "t2", "u2"⟩ = true ∧
    deleteCalendarEventModel
      ⟨true, true, true,
        [⟨"BEGIN:VEVENT\r\nUID:aaa\r\nSUMMARY:Team Meeting\r\nDTSTART:20250720T100000Z\r\nEND:VEVENT",
          "t1", ""⟩,
         ⟨"BEGIN:VEVENT\r\nUID:bbb\r\nSUMMARY:Meeting with Bob\r\nDTSTART:20250721T100000Z\r\nEND:VEVENT",
          "t2", "u2"⟩]⟩
      "meeting" "UTC" =
      ⟨.notFound "Try using 'read_calendar' to list events and find the correct identifier.",
        none, 1⟩ := by decide

/-- C5 amended: Delete scans the store-returned objects sequentially and
selects the first whose decoded UID equals the identifier or whose
decoded summary contains the identifier case-insensitively (so several
substring matches resolve to the first in store-returned order); the
selected object is deleted by its store locator provided that locator
is nonempty, while a selected object with an empty locator falls into
the source's falsy-URL guard and yields the structured not-found
result; with no match at all the same not-found result with the
suggestion is returned and nothing is deleted. -/
theorem C5_delete_first_match_guarded (env : DeleteEnv) (id tz : String)
    (hc : env.credsOk = true) (hk : env.connOk = true) (hn : env.calNonempty = true)
    (htz : tz ≠ "") :
    ((∀ o ∈ env.objs, deleteMatch id o = false) →
      deleteCalendarEventModel env id tz =
        ⟨.notFound "Try using 'read_calendar' to list events and find the correct identifier.",
          none, 1⟩) ∧
    (∀ (l1 : List StoredObj) (o : StoredObj) (l2 : List StoredObj),
      env.objs = l1 ++ o :: l2 → (∀ x ∈ l1, deleteMatch id x = false) →
      deleteMatch id o = true → o.url ≠ "" →
      deleteCalendarEventModel env id tz =
        ⟨.deleted (parseICalEvent o.data).summary (parseICalEvent o.data).uid o.url "",
          some o.url, 1⟩) ∧
    (∀ (l1 : List StoredObj) (o : StoredObj) (l2 : List StoredObj),
      env.objs = l1 ++ o :: l2 → (∀ x ∈ l1, deleteMatch id x = false) →
      deleteMatch id o = true → o.url = "" →
      deleteCalendarEventModel env id tz =
        ⟨.notFound "Try using 'read_calendar' to list events and find the correct identifier.",
          none, 1⟩) := by
  refine ⟨?_, ?_, ?_⟩
  · intro hall
    have hnone : env.objs.find? (deleteMatch id) = none :=
      List.find?_eq_none.mpr (fun x hx => by simp [hall x hx])
    unfold deleteCalendarEventModel
    simp [hc, hk, hn, htz, hnone]
  · intro l1 o l2 hobjs h1 h2 hurl
    have hsome : env.objs.find? (deleteMatch id) = some o := by
      rw [hobjs]; exact find?_append_first _ l1 o l2 h1 h2
    unfold deleteCalendarEventModel
    simp [hc, hk, hn, htz, hsome, hurl]
  · intro l1 o l2 hobjs h1 h2 hurl
    have hsome : env.objs.find? (deleteMatch id) = some o := by
      rw [hobjs]; exact find?_append_first _ l1 o l2 h1 h2
    unfold deleteCalendarEventModel
    simp [hc, hk, hn, htz, hsome, hurl]

/-- Witness for amended C5: the identifier "meeting" matches two stored
events by case-insensitive substring; the first in store-returned order
(after one non-matching object) has a nonempty locator and is the one
deleted; a one-object store whose matching object has an empty locator
exercises the falsy-URL conjunct. -/
theorem C5_delete_first_match_guarded_witness :
    deleteMatch "meeting"
      ⟨"BEGIN:VEVENT\r\nUID:ccc\r\nSUMMARY:Lunch\r\nDTSTART:20250722T120000Z\r\nEND:VEVENT",
        "t3", "u3"⟩ = false ∧
    deleteMatch "meeting"
      ⟨"BEGIN:VEVENT\r\nUID:aaa\r\nSUMMARY:Team Meeting\r\nDTSTART:20250720T100000Z\r\nEND:VEVENT",
        "t1", "u1"⟩ = true ∧
    deleteMatch "meeting"
      ⟨"BEGIN:VEVENT\r\nUID:bbb\r\nSUMMARY:Meeting with Bob\r\nDTSTART:20250721T100000Z\r\nEND:VEVENT",
        "t2", "u2"⟩ = true ∧
    deleteCalendarEventModel
      ⟨true, true, true,
        [⟨"BEGIN:VEVENT\r\nUID:ccc\r\nSUMMARY:Lunch\r\nDTSTART:20250722T120000Z\r\nEND:VEVENT",
          "t3", "u3"⟩,
         ⟨"BEGIN:VEVENT\r\nUID:aaa\r\nSUMMARY:Team Meeting\r\nDTSTART:20250720T100000Z\r\nEND:VEVENT",
          "t1", "u1"⟩,
         ⟨"BEGIN:VEVENT\r\nUID:bbb\r\nSUMMARY:Meeting with Bob\r\nDTSTART:20250721T100000Z\r\nEND:VEVENT",
          "t2", "u2"⟩]⟩
      "meeting" "UTC" = ⟨.deleted (some "Team Meeting") (some "aaa") "u1" "", some "u1", 1⟩ ∧
    deleteCalendarEventModel
      ⟨true, true, true,
        [⟨"BEGIN:VEVENT\r\nUID:aaa\r\nSUMMARY:Team Meeting\r\nDTSTART:20250720T100000Z\r\nEND:VEVENT",
          "t1", ""⟩]⟩
      "meeting" "UTC" =
      ⟨.notFound "Try using 'read_calendar' to list events and find the correct identifier.",
        none, 1⟩ := by
  refine ⟨by decide, by decide, by decide, ?_, ?_⟩
  · have h := (C5_delete_first_match_guarded
      ⟨true, true, true,
        [⟨"BEGIN:VEVENT\r\nUID:ccc\r\nSUMMARY:Lunch\r\nDTSTART:20250722T120000Z\r\nEND:VEVENT",
          "t3", "u3"⟩,
         ⟨"BEGIN:VEVENT\r\nUID:aaa\r\nSUMMARY:Team Meeting\r\nDTSTART:20250720T100000Z\r\nEND:VEVENT",
          "t1", "u1"⟩,
         ⟨"BEGIN:VEVENT\r\nUID:bbb\r\nSUMMARY:Meeting with Bob\r\nDTSTART:20250721T100000Z\r\nEND:VEVENT",
          "t2", "u2"⟩]⟩
      "meeting" "UTC" rfl rfl rfl (by decide)).2.1
      [⟨"BEGIN:VEVENT\r\nUID:ccc\r\nSUMMARY:Lunch\r\nDTSTART:20250722T120000Z\r\nEND:VEVENT",
        "t3", "u3"⟩]
      ⟨"BEGIN:VEVENT\r\nUID:aaa\r\nSUMMARY:Team Meeting\r\nDTSTART:20250720T100000Z\r\nEND:VEVENT",
        "t1", "u1"⟩
      [⟨"BEGIN:VEVENT\r\nUID:bbb\r\nSUMMARY:Meeting with Bob\r\nDTSTART:20250721T100000Z\r\nEND:VEVENT",
        "t2", "u2"⟩]
      rfl (by decide) (by decide) (by decide)
    rw [h]; decide
  · exact (C5_delete_first_match_guarded
      ⟨true, true, true,
        [⟨"BEGIN:VEVENT\r\nUID:aaa\r\nSUMMARY:Team Meeting\r\nDTSTART:20250720T100000Z\r\nEND:VEVENT",
          "t1", ""⟩]⟩
      "meeting" "UTC" rfl rfl rfl (by decide)).2.2
      []
      ⟨"BEGIN:VEVENT\r\nUID:aaa\r\nSUMMARY:Team Meeting\r\nDTSTART:20250720T100000Z\r\nEND:VEVENT",
        "t1", ""⟩
      []
      rfl (by decide) (by decide) rfl

/-- C10 counterexample: with the empty identifier, an earlier object
whose parse has an empty-string UID but no SUMMARY property is selected
ahead of the first object that does have a SUMMARY property, so the
claim as stated fails on this store. -/
theorem C10_counterexample :
    (parseICalEvent "UID:\r\nDTSTART:20250101T100000Z").summary = none ∧
    (parseICalEvent
      "BEGIN:VEVENT\r\nUID:aaa\r\nSUMMARY:Team Meeting\r\nDTSTART:20250720T100000Z\r\nEND:VEVENT").summary =
      some "Team Meeting" ∧
    deleteCalendarEventModel
      ⟨true, true, true,
        [⟨"UID:\r\nDTSTART:20250101T100000Z", "t0", "u0"⟩,
         ⟨"BEGIN:VEVENT\r\nUID:aaa\r\nSUMMARY:Team Meeting\r\nDTSTART:20250720T100000Z\r\nEND:VEVENT",
          "t1", "u1"⟩]⟩
      "" "UTC" = ⟨.deleted none (some "") "u0" "", some "u0", 1⟩ ∧
    ("u0" : String) ≠ "u1" := by decide

/-- C10 amended: with the empty identifier the summary-substring test is
vacuously true for every object carrying a SUMMARY property, so Delete
selects the first store-returned object whose parsed event has a
SUMMARY property or whose parsed UID is the empty string (rather than
rejecting the call as invalid); the selected object is deleted exactly
when its store locator is nonempty (an empty locator falls into the
source's falsy-URL guard and yields not-found), and when no object has
either property the structured not-found result is returned. -/
theorem C10_empty_identifier_first_match (env : DeleteEnv) (tz : String)
    (hc : env.credsOk = true) (hk : env.connOk = true) (hn : env.calNonempty = true)
    (htz : tz ≠ "") :
    (∀ o : StoredObj, deleteMatch "" o =
      (decide ((parseICalEvent o.data).uid = some "") ||
        (parseICalEvent o.data).summary.isSome)) ∧
    (deleteCalendarEventModel env "" tz).deletedUrl =
      ((env.objs.find? (fun o =>
        decide ((parseICalEvent o.data).uid = some "") ||
          (parseICalEvent o.data).summary.isSome)).bind
        (fun o => if o.url = "" then none else some o.url)) ∧
    ((∀ o ∈ env.objs,
        (parseICalEvent o.data).uid ≠ some "" ∧ (parseICalEvent o.data).summary = none) →
      (deleteCalendarEventModel env "" tz).outcome =
        .notFound "Try using 'read_calendar' to list events and find the correct identifier.") := by
  have hfun : deleteMatch "" = fun o =>
      (decide ((parseICalEvent o.data).uid = some "") ||
        (parseICalEvent o.data).summary.isSome) :=
    funext deleteMatch_empty
  refine ⟨deleteMatch_empty, ?_, ?_⟩
  · unfold deleteCalendarEventModel
    rw [hfun]
    cases hf : env.objs.find? (fun o =>
        (decide ((parseICalEvent o.data).uid = some "") ||
          (parseICalEvent o.data).summary.isSome)) with
    | none => simp [hc, hk, hn, htz, hf]
    | some o =>
      by_cases hu : o.url = "" <;> simp [hc, hk, hn, htz, hf, hu]
  · intro hall
    have hnone : env.objs.find? (deleteMatch "") = none := by
      rw [hfun]
      refine List.find?_eq_none.mpr (fun x hx => ?_)
      have := hall x hx
      simp [this.1, this.2]
    unfold deleteCalendarEventModel
    simp [hc, hk, hn, htz, hnone]

/-- Witness for C10 amended: on a concrete two-object store the deleted
URL is the one the first-match characterisation names. -/
theorem C10_empty_identifier_first_match_witness :
    ("UTC" : String) ≠ "" ∧
    (deleteCalendarEventModel
      ⟨true, true, true,
        [⟨"UID:\r\nDTSTART:20250101T100000Z", "t0", "u0"⟩,
         ⟨"BEGIN:VEVENT\r\nUID:aaa\r\nSUMMARY:Team Meeting\r\nDTSTART:20250720T100000Z\r\nEND:VEVENT",
          "t1", "u1"⟩]⟩
      "" "UTC").deletedUrl =
      (([⟨"UID:\r\nDTSTART:20250101T100000Z", "t0", "u0"⟩,
         ⟨"BEGIN:VEVENT\r\nUID:aaa\r\nSUMMARY:Team Meeting\r\nDTSTART:20250720T100000Z\r\nEND:VEVENT",
          "t1", "u1"⟩] : List StoredObj).find? (fun o =>
        decide ((parseICalEvent o.data).uid = some "") ||
          (parseICalEvent o.data).summary.isSome)).bind
        (fun o => if o.url = "" then none else some o.url) :=
  ⟨by decide,
    (C10_empty_identifier_first_match
      ⟨true, true, true,
        [⟨"UID:\r\nDTSTART:20250101T100000Z", "t0", "u0"⟩,
         ⟨"BEGIN:VEVENT\r\nUID:aaa\r\nSUMMARY:Team Meeting\r\nDTSTART:20250720T100000Z\r\nEND:VEVENT",
          "t1", "u1"⟩]⟩
      "UTC" rfl rfl rfl (by decide)).2.1⟩

/-- Facts about a decimal digit character. -/
theorem digitChar_facts (d : Nat) (h : d < 10) :
    (digitChar d).isDigit = true ∧ (digitChar d).toNat = 48 + d ∧
    isJsWS (digitChar d) = false ∧ digitChar d ≠ '\n' ∧ digitChar d ≠ '\r' := by
  interval_cases d <;> exact ⟨rfl, rfl, rfl, by decide, by decide⟩

/-- The fuel of the decimal printer is irrelevant once sufficient. -/
theorem natDigitsAux_fuel (n : Nat) : ∀ f : Nat, n < f → natDigitsAux f n = natDigits n := by
  induction n using Nat.strong_induction_on with
  | _ n ih =>
    intro f hf
    match f, hf with
    | f' + 1, _ =>
      by_cases h10 : n < 10
      · simp [natDigits, natDigitsAux, h10]
      · have hrec : n / 10 < n := Nat.div_lt_self (by omega) (by omega)
        have e1 : natDigitsAux (f' + 1) n = natDigitsAux f' (n / 10) ++ [digitChar (n % 10)] := by
          simp [natDigitsAux, h10]
        have e2 : natDigits n = natDigitsAux n (n / 10) ++ [digitChar (n % 10)] := by
          simp [natDigits, natDigitsAux, h10]
        rw [e1, e2, ih (n / 10) hrec f' (by omega), ih (n / 10) hrec n (by omega)]

/-- One-digit unfolding of the printer. -/
theorem natDigits_lt10 (n : Nat) (h : n < 10) : natDigits n = [digitChar n] := by
  simp [natDigits, natDigitsAux, h]

/-- Recursive unfolding of the printer. -/
theorem natDigits_ge10 (n : Nat) (h : 10 ≤ n) :
    natDigits n = natDigits (n / 10) ++ [digitChar (n % 10)] := by
  have e : natDigits n = natDigitsAux n (n / 10) ++ [digitChar (n % 10)] := by
    simp [natDigits, natDigitsAux, Nat.not_lt.mpr h]
  rw [e, natDigitsAux_fuel (n / 10) n (Nat.div_lt_self (by omega) (by omega))]

/-- Two-digit zero-padded printing of a value below 100. -/
theorem pad2_digits (n : Nat) (h : n < 100) :
    padStartChars 2 '0' (natDigits n) = [digitChar (n / 10), digitChar (n % 10)] := by
  by_cases h1 : n < 10
  · have e1 : n / 10 = 0 := by omega
    have e2 : n % 10 = n := by omega
    rw [natDigits_lt10 n h1, e1, e2]
    rfl
  · rw [natDigits_ge10 n (by omega), natDigits_lt10 (n / 10) (by omega)]
    rfl

/-- Four-digit zero-padded printing of a value below 10000. -/
theorem pad4_digits (n : Nat) (h : n < 10000) :
    padStartChars 4 '0' (natDigits n) =
      [digitChar (n / 1000), digitChar (n / 100 % 10),
        digitChar (n / 10 % 10), digitChar (n % 10)] := by
  have hdd : n / 10 / 10 = n / 100 := by
    rw [Nat.div_div_eq_div_mul]
  have hddd : n / 100 / 10 = n / 1000 := by
    rw [Nat.div_div_eq_div_mul]
  by_cases h1 : n < 10
  · have e1 : n / 1000 = 0 := by omega
    have e2 : n / 100 % 10 = 0 := by omega
    have e3 : n / 10 % 10 = 0 := by omega
    have e4 : n % 10 = n := by omega
    rw [natDigits_lt10 n h1, e1, e2, e3, e4]
    rfl
  · by_cases h2 : n < 100
    · have e1 : n / 1000 = 0 := by omega
      have e2 : n / 100 % 10 = 0 := by omega
      have e3 : n / 10 % 10 = n / 10 := by omega
      rw [natDigits_ge10 n (by omega), natDigits_lt10 (n / 10) (by omega), e1, e2, e3]
      rfl
    · by_cases h3 : n < 1000
      · have e1 : n / 1000 = 0 := by omega
        have e2 : n / 100 % 10 = n / 100 := by omega
        rw [natDigits_ge10 n (by omega), natDigits_ge10 (n / 10) (by omega), hdd,
          natDigits_lt10 (n / 100) (by omega), e1, e2]
        rfl
      · rw [natDigits_ge10 n (by omega), natDigits_ge10 (n / 10) (by omega), hdd,
          natDigits_ge10 (n / 100) (by omega), hddd,
          natDigits_lt10 (n / 1000) (by omega)]
        rfl

/-- Parsing a two-digit character pair. -/
theorem parseDigits_two (a b : Nat) (ha : a < 10) (hb : b < 10) :
    parseDigits [digitChar a, digitChar b] = 10 * a + b := by
  have h1 := (digitChar_facts a ha).2.1
  have h2 := (digitChar_facts b hb).2.1
  simp [parseDigits, h1, h2]
  omega

/-- Parsing a four-digit character run. -/
theorem parseDigits_four (a b c d : Nat) (ha : a < 10) (hb : b < 10) (hc : c < 10)
    (hd : d < 10) :
    parseDigits [digitChar a, digitChar b, digitChar c, digitChar d] =
      1000 * a + 100 * b + 10 * c + d := by
  have h1 := (digitChar_facts a ha).2.1
  have h2 := (digitChar_facts b hb).2.1
  have h3 := (digitChar_facts c hc).2.1
  have h4 := (digitChar_facts d hd).2.1
  simp [parseDigits, h1, h2, h3, h4]
  omega

/-- Every character of a printed number is a digit character. -/
theorem natDigits_mem (n : Nat) : ∀ c ∈ natDigits n, ∃ d, d < 10 ∧ c = digitChar d := by
  induction n using Nat.strong_induction_on with
  | _ n ih =>
    by_cases h10 : n < 10
    · rw [natDigits_lt10 n h10]
      intro c hc
      simp at hc
      exact ⟨n, h10, hc⟩
    · rw [natDigits_ge10 n (by omega)]
      intro c hc
      rcases List.mem_append.mp hc with h | h
      · exact ih (n / 10) (Nat.div_lt_self (by omega) (by omega)) c h
      · simp at h
        exact ⟨n % 10, Nat.mod_lt n (by omega), h⟩

/-- Characters of a zero-padded printed number are benign: digits only,
never whitespace or line terminators. -/
theorem padDigits_benign (w n : Nat) :
    ∀ c ∈ padStartChars w '0' (natDigits n),
      c ≠ '\n' ∧ c ≠ '\r' ∧ isJsWS c = false := by
  intro c hc
  rcases List.mem_append.mp hc with h | h
  · rw [List.eq_of_mem_replicate h]
    exact ⟨by decide, by decide, by decide⟩
  · obtain ⟨d, hd, rfl⟩ := natDigits_mem n c h
    obtain ⟨_, _, f3, f4, f5⟩ := digitChar_facts d hd
    exact ⟨f4, f5, f3⟩

/-- Characters of a compact date stamp are benign. -/
theorem formatICalDate_chars (dt : DT) :
    ∀ c ∈ (formatICalDate dt).data, c ≠ '\n' ∧ c ≠ '\r' ∧ isJsWS c = false := by
  intro c hc
  simp only [formatICalDate, List.mem_append, List.mem_cons, List.mem_singleton] at hc
  repeat' rcases hc with hc | hc
  all_goals first
    | exact padDigits_benign _ _ c hc
    | exact ⟨by decide, by decide, by decide⟩

/-- A `dropWhile` is the identity when no element satisfies the test. -/
theorem dropWhile_all_neg (p : Char → Bool) (l : List Char)
    (h : ∀ c ∈ l, p c = false) : l.dropWhile p = l := by
  cases l with
  | nil => rfl
  | cons a t => simp [List.dropWhile_cons, h a (by simp)]

/-- Trimming is the identity on whitespace-free text. -/
theorem trimChars_id (l : List Char) (h : ∀ c ∈ l, isJsWS c = false) : trimChars l = l := by
  unfold trimChars
  rw [dropWhile_all_neg _ l h,
    dropWhile_all_neg _ l.reverse (fun c hc => h c (List.mem_reverse.mp hc)),
    List.reverse_reverse]

/-- Explicit character list of a compact stamp with in-range fields. -/
theorem formatICalDate_data (dt : DT) (h : dtValidFields dt) :
    (formatICalDate dt).data =
      [digitChar (dt.year.toNat / 1000), digitChar (dt.year.toNat / 100 % 10),
        digitChar (dt.year.toNat / 10 % 10), digitChar (dt.year.toNat % 10),
        digitChar (dt.month.toNat / 10), digitChar (dt.month.toNat % 10),
        digitChar (dt.day.toNat / 10), digitChar (dt.day.toNat % 10), 'T',
        digitChar (dt.hour.toNat / 10), digitChar (dt.hour.toNat % 10),
        digitChar (dt.minute.toNat / 10), digitChar (dt.minute.toNat % 10),
        digitChar (dt.second.toNat / 10), digitChar (dt.second.toNat % 10), 'Z'] := by
  obtain ⟨hy0, hy1, hm0, hm1, hd0, hd1, hh0, hh1, hmi0, hmi1, hs0, hs1, hms⟩ := h
  show padStartChars 4 '0' (natDigits dt.year.toNat) ++
      padStartChars 2 '0' (natDigits dt.month.toNat) ++
      padStartChars 2 '0' (natDigits dt.day.toNat) ++
      'T' :: (padStartChars 2 '0' (natDigits dt.hour.toNat) ++
        padStartChars 2 '0' (natDigits dt.minute.toNat) ++
        padStartChars 2 '0' (natDigits dt.second.toNat) ++ ['Z']) = _
  rw [pad4_digits _ (by omega), pad2_digits dt.month.toNat (by omega),
    pad2_digits dt.day.toNat (by omega), pad2_digits dt.hour.toNat (by omega),
    pad2_digits dt.minute.toNat (by omega), pad2_digits dt.second.toNat (by omega)]
  rfl

/-- The shape test accepts a list of digit characters in the compact
16-character layout. -/
theorem compactStampCheck_digits (a b c d e f g h i j k l m n : Nat)
    (h1 : a < 10) (h2 : b < 10) (h3 : c < 10) (h4 : d < 10) (h5 : e < 10) (h6 : f < 10)
    (h7 : g < 10) (h8 : h < 10) (h9 : i < 10) (h10 : j < 10) (h11 : k < 10) (h12 : l < 10)
    (h13 : m < 10) (h14 : n < 10) :
    compactStampCheck
      [digitChar a, digitChar b, digitChar c, digitChar d, digitChar e, digitChar f,
        digitChar g, digitChar h, 'T', digitChar i, digitChar j, digitChar k, digitChar l,
        digitChar m, digitChar n, 'Z'] = true := by
  simp [compactStampCheck, (digitChar_facts a h1).1, (digitChar_facts b h2).1,
    (digitChar_facts c h3).1, (digitChar_facts d h4).1, (digitChar_facts e h5).1,
    (digitChar_facts f h6).1, (digitChar_facts g h7).1, (digitChar_facts h h8).1,
    (digitChar_facts i h9).1, (digitChar_facts j h10).1, (digitChar_facts k h11).1,
    (digitChar_facts l h12).1, (digitChar_facts m h13).1, (digitChar_facts n h14).1]

/-- Round trip of the compact stamp: parsing the formatted instant
recovers its fields exactly (second granularity, `ms = 0`). -/
theorem parseEventDateTime_format (dt : DT) (h : dtValidFields dt) :
    parseEventDateTime (formatICalDate dt) = some dt := by
  have hdata := formatICalDate_data dt h
  obtain ⟨hy0, hy1, hm0, hm1, hd0, hd1, hh0, hh1, hmi0, hmi1, hs0, hs1, hms⟩ := h
  have hcheck := compactStampCheck_digits
    (dt.year.toNat / 1000) (dt.year.toNat / 100 % 10) (dt.year.toNat / 10 % 10)
    (dt.year.toNat % 10) (dt.month.toNat / 10) (dt.month.toNat % 10)
    (dt.day.toNat / 10) (dt.day.toNat % 10) (dt.hour.toNat / 10) (dt.hour.toNat % 10)
    (dt.minute.toNat / 10) (dt.minute.toNat % 10) (dt.second.toNat / 10)
    (dt.second.toNat % 10)
    (by omega) (by omega) (by omega) (by omega) (by omega) (by omega) (by omega)
    (by omega) (by omega) (by omega) (by omega) (by omega) (by omega) (by omega)
  unfold parseEventDateTime
  rw [hdata, if_pos hcheck]
  have ep4 := parseDigits_four (dt.year.toNat / 1000) (dt.year.toNat / 100 % 10)
    (dt.year.toNat / 10 % 10) (dt.year.toNat % 10)
    (by omega) (by omega) (by omega) (by omega)
  have emo := parseDigits_two (dt.month.toNat / 10) (dt.month.toNat % 10) (by omega) (by omega)
  have eda := parseDigits_two (dt.day.toNat / 10) (dt.day.toNat % 10) (by omega) (by omega)
  have eho := parseDigits_two (dt.hour.toNat / 10) (dt.hour.toNat % 10) (by omega) (by omega)
  have emi := parseDigits_two (dt.minute.toNat / 10) (dt.minute.toNat % 10) (by omega) (by omega)
  have ese := parseDigits_two (dt.second.toNat / 10) (dt.second.toNat % 10) (by omega) (by omega)
  simp only [List.take, List.drop, ep4, emo, eda, eho, emi, ese, Option.some.injEq]
  obtain ⟨y, mo, da, ho, mi, se, ms⟩ := dt
  simp only [DT.mk.injEq]
  simp only at hy0 hy1 hm0 hm1 hd0 hd1 hh0 hh1 hmi0 hmi1 hs0 hs1 hms
  refine ⟨by omega, by omega, by omega, by omega, by omega, by omega, by omega⟩

/-- A single-character global replace is the identity when the pattern
does not occur. -/
theorem replaceChar_id (pat : Char) (rep : List Char) (cs : List Char)
    (h : ∀ c ∈ cs, c ≠ pat) : replaceChar pat rep cs = cs := by
  induction cs with
  | nil => rfl
  | cons a t ih =>
    have ha : a ≠ pat := h a (by simp)
    simp only [replaceChar, List.flatMap_cons, if_neg ha]
    have := ih (fun c hc => h c (by simp [hc]))
    simp only [replaceChar] at this
    rw [this]
    rfl

/-- Escaping is the identity on text free of the escaped characters. -/
theorem escapeICalString_id (s : String)
    (h : ∀ c ∈ s.data, ¬(c = '\\' ∨ c = ';' ∨ c = ',' ∨ c = '\n' ∨ c = '\r')) :
    escapeICalString s = s := by
  unfold escapeICalString
  rw [replaceChar_id '\\' _ _ (fun c hc => by have := h c hc; tauto),
    replaceChar_id ';' _ _ (fun c hc => by have := h c hc; tauto),
    replaceChar_id ',' _ _ (fun c hc => by have := h c hc; tauto),
    replaceChar_id '\n' _ _ (fun c hc => by have := h c hc; tauto),
    replaceChar_id '\r' _ _ (fun c hc => by have := h c hc; tauto)]

/-- Backslash-free text is untouched by the newline unescape. -/
theorem unescNL_id (cs : List Char) (h : ∀ c ∈ cs, c ≠ '\\') : unescNL cs = cs := by
  induction cs with
  | nil => rfl
  | cons a t ih =>
    cases t with
    | nil => rfl
    | cons b r =>
      have ha : a ≠ '\\' := h a (by simp)
      have e : unescNL (a :: b :: r) = a :: unescNL (b :: r) := by
        simp only [unescNL]
        rw [if_neg (by simp [ha])]
      rw [e, ih (fun c hc => h c (by simp [hc]))]

/-- A separator-free prefix passes through the first-colon split. -/
theorem splitFirst_append (sep : Char) (l1 l2 : List Char) (h : sep ∉ l1) :
    splitFirst sep (l1 ++ l2) =
      (splitFirst sep l2).map (fun p => (l1 ++ p.1, p.2)) := by
  induction l1 with
  | nil =>
    cases hs : splitFirst sep l2 <;> simp [hs]
  | cons a t ih =>
    have ha : a ≠ sep := by intro e; exact h (by simp [e])
    have ht : sep ∉ t := fun e => h (by simp [e])
    show splitFirst sep (a :: (t ++ l2)) = _
    simp only [splitFirst, if_neg ha]
    rw [ih ht]
    cases hs : splitFirst sep l2 <;> simp [hs]

/-- A list containing the separator splits successfully. -/
theorem splitFirst_isSome (sep : Char) (l : List Char) (h : sep ∈ l) :
    ∃ k v, splitFirst sep l = some (k, v) := by
  induction l with
  | nil => cases h
  | cons a t ih =>
    by_cases ha : a = sep
    · exact ⟨[], t, by simp [splitFirst, ha]⟩
    · have e : sep ∈ t := by
        rcases List.mem_cons.mp h with e | e
        · exact absurd e.symm ha
        · exact e
      obtain ⟨k, v, hkv⟩ := ih e
      exact ⟨a :: k, v, by simp [splitFirst, ha, hkv]⟩

/-- `takeWhile` over a satisfying prefix followed by a failing element. -/
theorem takeWhile_append_middle (p : Char → Bool) (l1 : List Char) (x : Char)
    (l2 : List Char) (h1 : ∀ c ∈ l1, p c = true) (h2 : p x = false) :
    (l1 ++ x :: l2).takeWhile p = l1 := by
  induction l1 with
  | nil => simp [List.takeWhile_cons, h2]
  | cons a t ih =>
    simp only [List.cons_append, List.takeWhile_cons, h1 a (by simp), if_true]
    rw [ih (fun c hc => h1 c (by simp [hc]))]

/-- Step of the line splitter past an ordinary character. -/
theorem splitRN_cons_other (c b : Char) (r : List Char) (h1 : c ≠ '\n') (h2 : c ≠ '\r') :
    splitRN (c :: b :: r) = consHead c (splitRN (b :: r)) := by
  simp only [splitRN]
  rw [if_neg h1, if_neg (by simp [h2])]

/-- Splitting leaves newline-free text in one piece. -/
theorem splitRN_single (l : List Char) (h : ∀ c ∈ l, c ≠ '\n' ∧ c ≠ '\r') :
    splitRN l = [l] := by
  induction l with
  | nil => rfl
  | cons a t ih =>
    have ha := h a (by simp)
    cases t with
    | nil => simp [splitRN, ha.1]
    | cons b r =>
      rw [splitRN_cons_other a b r ha.1 ha.2, ih (fun c hc => h c (by simp [hc]))]
      rfl

/-- Splitting consumes a CRLF after a newline-free piece. -/
theorem splitRN_append_crlf (a rest : List Char) (h : ∀ c ∈ a, c ≠ '\n' ∧ c ≠ '\r') :
    splitRN (a ++ '\r' :: '\n' :: rest) = a :: splitRN rest := by
  induction a with
  | nil =>
    show splitRN ('\r' :: '\n' :: rest) = [] :: splitRN rest
    simp [splitRN]
  | cons c t ih =>
    have hc := h c (by simp)
    have hih := ih (fun x hx => h x (by simp [hx]))
    cases t with
    | nil =>
      show splitRN (c :: '\r' :: '\n' :: rest) = [c] :: splitRN rest
      rw [splitRN_cons_other c '\r' ('\n' :: rest) hc.1 hc.2]
      show consHead c ([] :: splitRN rest) = [c] :: splitRN rest
      rfl
    | cons b r =>
      show splitRN (c :: b :: (r ++ '\r' :: '\n' :: rest)) = (c :: b :: r) :: splitRN rest
      rw [splitRN_cons_other c b (r ++ '\r' :: '\n' :: rest) hc.1 hc.2]
      have hih' : splitRN (b :: (r ++ '\r' :: '\n' :: rest)) = (b :: r) :: splitRN rest := hih
      rw [hih']
      rfl

/-- Splitting inverts the CRLF join of newline-free lines. -/
theorem splitRN_join (ls : List (List Char)) (hne : ls ≠ [])
    (h : ∀ l ∈ ls, ∀ c ∈ l, c ≠ '\n' ∧ c ≠ '\r') :
    splitRN (joinLinesCRLF ls) = ls := by
  induction ls with
  | nil => exact absurd rfl hne
  | cons a t ih =>
    cases t with
    | nil =>
      show splitRN (joinLinesCRLF [a]) = [a]
      exact splitRN_single a (h a (by simp))
    | cons b r =>
      show splitRN (a ++ '\r' :: '\n' :: joinLinesCRLF (b :: r)) = a :: b :: r
      rw [splitRN_append_crlf a _ (h a (by simp)),
        ih (by simp) (fun l hl => h l (by simp [hl]))]

/-- A non-continuation line with a colon is handled by the key switch. -/
theorem parseLine_eq_dispatch (st : PState) (line : List Char) (c : Char) (rest : List Char)
    (hline : line = c :: rest) (hsp : c ≠ ' ' ∧ c ≠ '\t') (k v : List Char)
    (hsplit : splitFirst ':' line = some (k, v)) :
    parseLine st line = dispatchKey st (k.takeWhile (fun x => x ≠ ';')) v := by
  subst hline
  have h1 : parseLine st (c :: rest) =
      if (c = ' ' || c = '\t') = true then
        (match st.currentKey with
         | some fk => ⟨applyCont st.ev fk (trimChars (c :: rest)), st.currentKey⟩
         | none => st)
      else
        match splitFirst ':' (c :: rest) with
        | none => st
        | some (key, value) => dispatchKey st (key.takeWhile (fun x => x ≠ ';')) value := rfl
  rw [h1, if_neg (by simp [hsp.1, hsp.2]), hsplit]

/-- Fixed lines of the encoder that the parser ignores (they only reset
`currentKey`). -/
theorem parseLine_begin_cal (st : PState) :
    parseLine st "BEGIN:VCALENDAR".data = ⟨st.ev, none⟩ := rfl

theorem parseLine_version (st : PState) :
    parseLine st "VERSION:2.0".data = ⟨st.ev, none⟩ := rfl

theorem parseLine_prodid (st : PState) :
    parseLine st "PRODID:-//AI Calendar Tool//EN".data = ⟨st.ev, none⟩ := rfl

theorem parseLine_calscale (st : PState) :
    parseLine st "CALSCALE:GREGORIAN".data = ⟨st.ev, none⟩ := rfl

theorem parseLine_begin_ev (st : PState) :
    parseLine st "BEGIN:VEVENT".data = ⟨st.ev, none⟩ := rfl

theorem parseLine_status (st : PState) :
    parseLine st "STATUS:CONFIRMED".data = ⟨st.ev, none⟩ := rfl

theorem parseLine_end_ev (st : PState) :
    parseLine st "END:VEVENT".data = ⟨st.ev, none⟩ := rfl

theorem parseLine_end_cal (st : PState) :
    parseLine st "END:VCALENDAR".data = ⟨st.ev, none⟩ := rfl

/-- Stamp lines are ignored whatever their value. -/
theorem parseLine_dtstamp (st : PState) (x : String) :
    parseLine st ("DTSTAMP:" ++ x).data = ⟨st.ev, none⟩ := rfl

theorem parseLine_created (st : PState) (x : String) :
    parseLine st ("CREATED:" ++ x).data = ⟨st.ev, none⟩ := rfl

theorem parseLine_lastmod (st : PState) (x : String) :
    parseLine st ("LAST-MODIFIED:" ++ x).data = ⟨st.ev, none⟩ := rfl

/-- Capturing lines: the parser stores the trimmed value. -/
theorem parseLine_uid (st : PState) (x : String) :
    parseLine st ("UID:" ++ x).data = ⟨{ st.ev with uid := some (jsTrim x) }, some .uid⟩ := rfl

theorem parseLine_summary (st : PState) (x : String) :
    parseLine st ("SUMMARY:" ++ x).data =
      ⟨{ st.ev with summary := some (jsTrim x) }, some .summary⟩ := rfl

theorem parseLine_dtstart (st : PState) (x : String) :
    parseLine st ("DTSTART:" ++ x).data =
      ⟨{ st.ev with startD := parseEventDateTime (jsTrim x) }, some .startK⟩ := rfl

theorem parseLine_dtend (st : PState) (x : String) :
    parseLine st ("DTEND:" ++ x).data =
      ⟨{ st.ev with endD := parseEventDateTime (jsTrim x) }, some .endK⟩ := rfl

theorem parseLine_description (st : PState) (x : String) :
    parseLine st ("DESCRIPTION:" ++ x).data =
      ⟨{ st.ev with description := some ⟨unescNL (trimChars x.data)⟩ }, some .description⟩ := rfl

theorem parseLine_location (st : PState) (x : String) :
    parseLine st ("LOCATION:" ++ x).data =
      ⟨{ st.ev with location := some (jsTrim x) }, some .location⟩ := rfl

/-- The `ORGANIZER` line is ignored for any organizer address: the main
key before the first semicolon is `ORGANIZER`, whatever the address
contributes to the raw key. -/
theorem parseLine_organizer (st : PState) (e : String) :
    parseLine st ("ORGANIZER;CN=" ++ e ++ ":mailto:" ++ e).data = ⟨st.ev, none⟩ := by
  have hdata : ("ORGANIZER;CN=" ++ e ++ ":mailto:" ++ e).data =
      "ORGANIZER;CN=".data ++ (e.data ++ (':' :: ("mailto:".data ++ e.data))) := by
    simp
  have hmem : ':' ∈ e.data ++ (':' :: ("mailto:".data ++ e.data)) := by simp
  obtain ⟨k, v, hkv⟩ := splitFirst_isSome ':' _ hmem
  have hsplit : splitFirst ':' (("ORGANIZER;CN=" ++ e ++ ":mailto:" ++ e).data) =
      some ("ORGANIZER;CN=".data ++ k, v) := by
    rw [hdata, splitFirst_append ':' _ _ (by decide), hkv]
    rfl
  rw [parseLine_eq_dispatch st _ 'O'
    ("RGANIZER;CN=".data ++ (e.data ++ (':' :: ("mailto:".data ++ e.data))))
    (by rw [hdata]; rfl) (by constructor <;> decide) _ _ hsplit]
  show dispatchKey st
    (List.takeWhile (fun x => x ≠ ';') ("ORGANIZER".data ++ ';' :: ("CN=".data ++ k))) v =
    ⟨st.ev, none⟩
  rw [takeWhile_append_middle _ "ORGANIZER".data ';' _ (by decide) (by decide)]
  rfl

/-- The `ATTENDEE` line is ignored for any attendee address. -/
theorem parseLine_attendee (st : PState) (e : String) :
    parseLine st (attendeeLine e).data = ⟨st.ev, none⟩ := by
  have hdata : (attendeeLine e).data =
      "ATTENDEE;CN=".data ++
        (e.data ++
          (";ROLE=REQ-PARTICIPANT;PARTSTAT=NEEDS-ACTION;RSVP=TRUE:mailto:".data ++ e.data)) := by
    simp [attendeeLine]
  have hmem : ':' ∈ e.data ++
      (";ROLE=REQ-PARTICIPANT;PARTSTAT=NEEDS-ACTION;RSVP=TRUE:mailto:".data ++ e.data) :=
    List.mem_append_right _ (List.mem_append_left _ (by decide))
  obtain ⟨k, v, hkv⟩ := splitFirst_isSome ':' _ hmem
  have hsplit : splitFirst ':' ((attendeeLine e).data) =
      some ("ATTENDEE;CN=".data ++ k, v) := by
    rw [hdata, splitFirst_append ':' _ _ (by decide), hkv]
    rfl
  rw [parseLine_eq_dispatch st _ 'A'
    ("TTENDEE;CN=".data ++
      (e.data ++
        (";ROLE=REQ-PARTICIPANT;PARTSTAT=NEEDS-ACTION;RSVP=TRUE:mailto:".data ++ e.data)))
    (by rw [hdata]; rfl) (by constructor <;> decide) _ _ hsplit]
  show dispatchKey st
    (List.takeWhile (fun x => x ≠ ';') ("ATTENDEE".data ++ ';' :: ("CN=".data ++ k))) v =
    ⟨st.ev, none⟩
  rw [takeWhile_append_middle _ "ATTENDEE".data ';' _ (by decide) (by decide)]
  rfl

/-- Folding the parser over the attendee block never changes the event
record (only `currentKey` may change). -/
theorem foldl_attendee_eq (atts : List String) (st : PState) :
    List.foldl parseLine st ((atts.map attendeeLine).map String.data) =
      ⟨st.ev, if atts.isEmpty then st.currentKey else none⟩ := by
  induction atts generalizing st with
  | nil => rfl
  | cons a t ih =>
    simp only [List.map_cons, List.foldl_cons, parseLine_attendee, List.isEmpty_cons]
    rw [ih ⟨st.ev, none⟩]
    cases t <;> rfl

/-- Concatenation preserves freedom from line terminators. -/
theorem NoNL_append (s t : String) (hs : NoNL s) (ht : NoNL t) : NoNL (s ++ t) := by
  intro c hc
  rw [String.data_append] at hc
  rcases List.mem_append.mp hc with h | h
  · exact hs c h
  · exact ht c h

/-- Clean text is in particular free of line terminators. -/
theorem CleanText_NoNL (s : String) (h : CleanText s) : NoNL s := by
  intro c hc
  have hch := h.1 c hc
  exact ⟨fun e => hch (by tauto), fun e => hch (by tauto)⟩

/-- Compact stamps are free of line terminators. -/
theorem NoNL_of_fmt (dt : DT) : NoNL (formatICalDate dt) := fun c hc =>
  ⟨(formatICalDate_chars dt c hc).1, (formatICalDate_chars dt c hc).2.1⟩

/-- Attendee lines built from a terminator-free address are clean. -/
theorem NoNL_attendeeLine (e : String) (he : NoNL e) : NoNL (attendeeLine e) := by
  unfold attendeeLine
  exact NoNL_append _ _ (NoNL_append _ _ (NoNL_append _ _ (by decide) he) (by decide)) he

/-- Trimming does not change a compact stamp. -/
theorem jsTrim_fmt (dt : DT) : jsTrim (formatICalDate dt) = formatICalDate dt := by
  unfold jsTrim
  rw [trimChars_id _ (fun c hc => (formatICalDate_chars dt c hc).2.2)]

/-- C1 amended: decoding the iCalendar text produced by the encoder
inside `createCalendarEventTool` recovers the event's summary, start,
end, location and description — for text fields free of
escape-relevant characters (backslash, semicolon, comma, newline,
carriage return) and stable under trimming, nonempty description and
location, line-terminator-free uid / organizer / attendee strings, and
instants whose fields fit the compact stamp (second granularity) — but
NOT the attendees: the decoder has no `ATTENDEE` case, so no structured
attendee data is recovered (see the counterexample, where two encodes
differing only in attendees decode identically). The UID is excluded as
in the original claim (encode always regenerates it). -/
theorem C1_roundtrip_without_attendees (uid organizer summary description location : String)
    (atts : List String) (evStart evEnd now : DT)
    (hsum : CleanText summary) (hdesc : CleanText description) (hloc : CleanText location)
    (hdne : description ≠ "") (hlne : location ≠ "")
    (huid : NoNL uid) (horg : NoNL organizer) (hatts : ∀ a ∈ atts, NoNL a)
    (hs : dtValidFields evStart) (he : dtValidFields evEnd) :
    (parseICalEvent (encodeEventData uid organizer summary evStart evEnd description
      location atts now)).summary = some summary ∧
    (parseICalEvent (encodeEventData uid organizer summary evStart evEnd description
      location atts now)).startD = some evStart ∧
    (parseICalEvent (encodeEventData uid organizer summary evStart evEnd description
      location atts now)).endD = some evEnd ∧
    (parseICalEvent (encodeEventData uid organizer summary evStart evEnd description
      location atts now)).description = some description ∧
    (parseICalEvent (encodeEventData uid organizer summary evStart evEnd description
      location atts now)).location = some location := by
  have hesc_s := escapeICalString_id summary hsum.1
  have hesc_d := escapeICalString_id description hdesc.1
  have hesc_l := escapeICalString_id location hloc.1
  have hlines : eventDataLines uid organizer summary evStart evEnd description location atts now =
      ["BEGIN:VCALENDAR", "VERSION:2.0", "PRODID:-//AI Calendar Tool//EN", "CALSCALE:GREGORIAN",
        "BEGIN:VEVENT", "UID:" ++ uid, "ORGANIZER;CN=" ++ organizer ++ ":mailto:" ++ organizer,
        "SUMMARY:" ++ summary, "DTSTART:" ++ formatICalDate evStart,
        "DTEND:" ++ formatICalDate evEnd, "DESCRIPTION:" ++ description,
        "LOCATION:" ++ location] ++
      ((atts.map attendeeLine) ++
        ["STATUS:CONFIRMED", "DTSTAMP:" ++ formatICalDate now,
          "CREATED:" ++ formatICalDate now, "LAST-MODIFIED:" ++ formatICalDate now,
          "END:VEVENT", "END:VCALENDAR"]) := by
    unfold eventDataLines
    rw [if_pos hdne, if_pos hlne, hesc_s, hesc_d, hesc_l]
    rfl
  have hne : (eventDataLines uid organizer summary evStart evEnd description location atts
      now).map String.data ≠ [] := by
    rw [hlines]
    simp
  have hclean : ∀ l ∈ (eventDataLines uid organizer summary evStart evEnd description location
      atts now).map String.data, ∀ c ∈ l, c ≠ '\n' ∧ c ≠ '\r' := by
    rw [hlines]
    intro l hl
    obtain ⟨s, hs', rfl⟩ := List.mem_map.mp hl
    simp only [List.mem_append, List.mem_cons, List.mem_map, List.not_mem_nil, or_false] at hs'
    obtain (hs'|hs'|hs'|hs'|hs'|hs'|hs'|hs'|hs'|hs'|hs'|hs') | ⟨a, ha, rfl⟩ |
      hs'|hs'|hs'|hs'|hs'|hs' := hs'
    all_goals try subst hs'
    all_goals first
      | exact NoNL_attendeeLine a (hatts a ha)
      | decide
      | exact NoNL_append _ _ (by decide) huid
      | exact NoNL_append _ _ (NoNL_append _ _ (NoNL_append _ _ (by decide) horg)
          (by decide)) horg
      | exact NoNL_append _ _ (by decide) (CleanText_NoNL _ hsum)
      | exact NoNL_append _ _ (by decide) (CleanText_NoNL _ hdesc)
      | exact NoNL_append _ _ (by decide) (CleanText_NoNL _ hloc)
      | exact NoNL_append _ _ (by decide) (NoNL_of_fmt evStart)
      | exact NoNL_append _ _ (by decide) (NoNL_of_fmt evEnd)
      | exact NoNL_append _ _ (by decide) (NoNL_of_fmt now)
  have hcore : parseICalEvent (encodeEventData uid organizer summary evStart evEnd description
      location atts now) =
      (List.foldl parseLine ⟨{}, none⟩ ((eventDataLines uid organizer summary evStart evEnd
        description location atts now).map String.data)).ev := by
    show (List.foldl parseLine ⟨{}, none⟩ (splitRN (joinLinesCRLF ((eventDataLines uid organizer
      summary evStart evEnd description location atts now).map String.data)))).ev = _
    rw [splitRN_join _ hne hclean]
  have htr : trimChars description.data = description.data := congrArg String.data hdesc.2
  have hun : unescNL description.data = description.data :=
    unescNL_id _ (fun c hc e => hdesc.1 c hc (Or.inl e))
  have hfull : parseICalEvent (encodeEventData uid organizer summary evStart evEnd description
      location atts now) =
      { summary := some summary, startD := some evStart, endD := some evEnd,
        description := some description, location := some location,
        uid := some (jsTrim uid), recurrence := none } := by
    rw [hcore, hlines]
    simp only [List.map_append, List.map_cons, List.map_nil, List.foldl_append,
      List.foldl_cons, List.foldl_nil]
    rw [parseLine_begin_cal, parseLine_version, parseLine_prodid, parseLine_calscale,
      parseLine_begin_ev, parseLine_uid, parseLine_organizer, parseLine_summary,
      parseLine_dtstart, parseLine_dtend, parseLine_description, parseLine_location]
    rw [foldl_attendee_eq]
    rw [parseLine_status, parseLine_dtstamp, parseLine_created, parseLine_lastmod,
      parseLine_end_ev, parseLine_end_cal]
    rw [hsum.2, hloc.2, jsTrim_fmt evStart, parseEventDateTime_format evStart hs,
      jsTrim_fmt evEnd, parseEventDateTime_format evEnd he, htr, hun]
  rw [hfull]
  exact ⟨rfl, rfl, rfl, rfl, rfl⟩

set_option maxRecDepth 8192 in
/-- C1 counterexample: the round trip does not recover attendees — two
encodes differing only in the attendee list decode to identical
structured events (the decoder has no `ATTENDEE` case) — and a summary
containing a comma is not recovered either, because the decoder never
unescapes the encoder's escaping. -/
theorem C1_counterexample :
    parseICalEvent (encodeEventData "u1@ai-calendar" "org@acme.io" "Standup"
      ⟨2025, 7, 21, 10, 0, 0, 0⟩ ⟨2025, 7, 21, 11, 0, 0, 0⟩ "Daily sync" "Room 1"
      ["alice@acme.io"] ⟨2025, 7, 14, 12, 0, 0, 0⟩) =
    parseICalEvent (encodeEventData "u1@ai-calendar" "org@acme.io" "Standup"
      ⟨2025, 7, 21, 10, 0, 0, 0⟩ ⟨2025, 7, 21, 11, 0, 0, 0⟩ "Daily sync" "Room 1"
      [] ⟨2025, 7, 14, 12, 0, 0, 0⟩) ∧
    (["alice@acme.io"] : List String) ≠ [] ∧
    (parseICalEvent (encodeEventData "u1@ai-calendar" "org@acme.io" "a,b"
      ⟨2025, 7, 21, 10, 0, 0, 0⟩ ⟨2025, 7, 21, 11, 0, 0, 0⟩ "" "" []
      ⟨2025, 7, 14, 12, 0, 0, 0⟩)).summary = some "a\\,b" ∧
    ("a\\,b" : String) ≠ "a,b" := by decide

/-- Witness for the amended C1 round trip at a concrete event. -/
theorem C1_roundtrip_without_attendees_witness :
    (CleanText "Standup" ∧ CleanText "Daily sync" ∧ CleanText "Room 1" ∧
      dtValidFields ⟨2025, 7, 21, 10, 0, 0, 0⟩ ∧ dtValidFields ⟨2025, 7, 21, 11, 0, 0, 0⟩) ∧
    (parseICalEvent (encodeEventData "u1@ai-calendar" "org@acme.io" "Standup"
      ⟨2025, 7, 21, 10, 0, 0, 0⟩ ⟨2025, 7, 21, 11, 0, 0, 0⟩ "Daily sync" "Room 1"
      ["alice@acme.io"] ⟨2025, 7, 14, 12, 0, 0, 0⟩)).summary = some "Standup" ∧
    (parseICalEvent (encodeEventData "u1@ai-calendar" "org@acme.io" "Standup"
      ⟨2025, 7, 21, 10, 0, 0, 0⟩ ⟨2025, 7, 21, 11, 0, 0, 0⟩ "Daily sync" "Room 1"
      ["alice@acme.io"] ⟨2025, 7, 14, 12, 0, 0, 0⟩)).startD = some ⟨2025, 7, 21, 10, 0, 0, 0⟩ ∧
    (parseICalEvent (encodeEventData "u1@ai-calendar" "org@acme.io" "Standup"
      ⟨2025, 7, 21, 10, 0, 0, 0⟩ ⟨2025, 7, 21, 11, 0, 0, 0⟩ "Daily sync" "Room 1"
      ["alice@acme.io"] ⟨2025, 7, 14, 12, 0, 0, 0⟩)).endD = some ⟨2025, 7, 21, 11, 0, 0, 0⟩ ∧
    (parseICalEvent (encodeEventData "u1@ai-calendar" "org@acme.io" "Standup"
      ⟨2025, 7, 21, 10, 0, 0, 0⟩ ⟨2025, 7, 21, 11, 0, 0, 0⟩ "Daily sync" "Room 1"
      ["alice@acme.io"] ⟨2025, 7, 14, 12, 0, 0, 0⟩)).description = some "Daily sync" ∧
    (parseICalEvent (encodeEventData "u1@ai-calendar" "org@acme.io" "Standup"
      ⟨2025, 7, 21, 10, 0, 0, 0⟩ ⟨2025, 7, 21, 11, 0, 0, 0⟩ "Daily sync" "Room 1"
      ["alice@acme.io"] ⟨2025, 7, 14, 12, 0, 0, 0⟩)).location = some "Room 1" :=
  ⟨⟨by decide, by decide, by decide, by decide, by decide⟩,
    C1_roundtrip_without_attendees "u1@ai-calendar" "org@acme.io" "Standup" "Daily sync"
      "Room 1" ["alice@acme.io"] ⟨2025, 7, 21, 10, 0, 0, 0⟩ ⟨2025, 7, 21, 11, 0, 0, 0⟩
      ⟨2025, 7, 14, 12, 0, 0, 0⟩ (by decide) (by decide) (by decide) (by decide) (by decide)
      (by decide) (by decide) (by decide) (by decide) (by decide)⟩

/-- Witness for C9 at the claim's concrete address: `alice@mycompany.com`
ends with the deny-listed string `company.com` and is dropped. -/
theorem C9_suffix_only_matching_witness :
    ("company.com" ∈ exampleDomains ∧
      jsEndsWith (jsToLower (jsTrim "alice@mycompany.com")) "company.com" = true) ∧
    attendeeKeep (jsTrim "alice@mycompany.com") = false ∧
    jsTrim "alice@mycompany.com" ∉ validAttendees ["alice@mycompany.com"] :=
  ⟨⟨by decide, by decide⟩,
    (C9_suffix_only_matching.1 "alice@mycompany.com" "company.com" (by decide) (by decide)).1,
    (C9_suffix_only_matching.1 "alice@mycompany.com" "company.com" (by decide) (by decide)).2
      ["alice@mycompany.com"]⟩

end CalendarCore
